import Mathlib

/-!
Verification of the graph-IR / optimizer / workload core of the armnn
fragment.  The repository fragment under scrutiny contains the
TransposeAsReshape optimization test, the RefPermuteWorkload declaration and
the deserializer test fixture; the Graph, Optimizer and Permute
implementations themselves are exercised by that code but their bodies are
not part of the fragment, so they are modelled from the specification, as
marked on each definition.
-/

namespace ArmnnSpec

/-- Element data types of tensors, as enumerated by the RefPermuteWorkload
type aliases (BFloat16, Float16, Float32, QAsymmS8, QAsymmU8, QSymmS16). -/
inductive DataType where
  | BFloat16
  | Float16
  | Float32
  | QAsymmS8
  | QAsymmU8
  | QSymmS16
deriving DecidableEq

/-- Modelled from the spec: TensorInfo is an immutable description of a
tensor's shape, element data type and quantization scale / zero-point.
Floating-point scale values are modelled as exact rationals; no operation in
the fragment performs arithmetic on them. -/
structure TensorInfo where
  shape : List Nat
  dataType : DataType
  quantScale : Rat
  quantOffset : Int
deriving DecidableEq

/-- Modelled from the spec: the closed tagged variant of layer operation
kinds appearing in the fragment, each carrying its kind-specific
parameters (a permutation vector for Transpose, a target shape for
Reshape). -/
inductive LayerKind where
  | input
  | output
  | transpose (perm : List Nat)
  | reshape (targetShape : List Nat)
deriving DecidableEq

/-- Whether a layer kind has an input slot (arity fixed by kind: Input-kind
layers have no input slot, Output-kind layers one input slot and no output
slot, Transpose and Reshape one of each). -/
def hasInputSlot : LayerKind → Bool
  | .input => false
  | _ => true

/-- Whether a layer kind has an output slot. -/
def hasOutputSlot : LayerKind → Bool
  | .output => false
  | _ => true

/-- Modelled from the spec: a Layer is a graph node with a stable identifier,
a debug name, an operation kind with its parameters, at most one input slot
holding the identifier of its single upstream layer (single-upstream-per-
input is structural here: an input slot stores one optional upstream), the
TensorInfo of its output handler once resolved, and the related-layers
side-table entries recorded by optimizations. -/
structure Layer where
  id : Nat
  name : String
  kind : LayerKind
  inputConn : Option Nat
  outInfo : Option TensorInfo
  related : List String
deriving DecidableEq

/-- Modelled from the spec: a Graph is the ordered sequence of its layers
together with a fresh-identifier counter used to hand out stable handles. -/
structure Graph where
  layers : List Layer
  nextId : Nat
deriving DecidableEq

/-- The empty graph. -/
def Graph.empty : Graph := { layers := [], nextId := 0 }

/-- Look a layer up by its stable identifier. -/
def findLayer (g : Graph) (lid : Nat) : Option Layer :=
  g.layers.find? (fun L => L.id == lid)

/-- Modelled from the spec: AddLayer appends a new, fully disconnected layer
at the end of the current order and returns its stable handle. -/
def addLayer (g : Graph) (k : LayerKind) (name : String) : Graph × Nat :=
  ({ layers := g.layers ++
        [{ id := g.nextId, name := name, kind := k, inputConn := none,
           outInfo := none, related := [] }],
     nextId := g.nextId + 1 }, g.nextId)

/-- Walk the layer list, insert the new layer `newL` directly before the
layer with identifier `tid` and rewire that layer's input slot to the new
layer `nid`; used by `insertNewLayer`. -/
def spliceAux (tid nid : Nat) (newL : Layer) : List Layer → List Layer
  | [] => []
  | x :: xs =>
      if x.id = tid then newL :: { x with inputConn := some nid } :: xs
      else x :: spliceAux tid nid newL xs

/-- Modelled from the spec: InsertNewLayer creates a new layer and splices it
between the output slot currently feeding the target layer's input slot and
that input slot; if the target input slot is unconnected the new layer is
simply connected to it (this is what the in-repository test exercises when it
inserts the Input layer ahead of the Output layer).  The call fails when the
target does not exist, when the target kind has no input slot, when the new
kind has no output slot, or when the target is connected but the new kind has
no input slot to take over the previous upstream. -/
def insertNewLayer (g : Graph) (targetId : Nat) (k : LayerKind)
    (name : String) : Option (Graph × Nat) :=
  match findLayer g targetId with
  | none => none
  | some tgt =>
      if hasInputSlot tgt.kind = false then none
      else if hasOutputSlot k = false then none
      else if tgt.inputConn.isSome && !hasInputSlot k then none
      else
        some ({ layers := spliceAux targetId g.nextId
                  { id := g.nextId, name := name, kind := k,
                    inputConn := tgt.inputConn, outInfo := none, related := [] }
                  g.layers,
                nextId := g.nextId + 1 }, g.nextId)

/-- Identifier renaming induced by replacing the layer `oldId` with the fresh
layer `nid`. -/
def renameId (oldId nid i : Nat) : Nat :=
  if i = oldId then nid else i

/-- Per-layer action of ReplaceLayer: the layer `oldId` itself becomes the
replacement layer (keeping its position and its upstream connection), and
every consumer of `oldId` is rewired to the replacement's output. -/
def replaceFn (oldId nid : Nat) (k : LayerKind) (name : String)
    (info : Option TensorInfo) (rel : List String) (L : Layer) : Layer :=
  let inp := L.inputConn.map (renameId oldId nid)
  if L.id = oldId then
    { id := nid, name := name, kind := k, inputConn := inp,
      outInfo := info, related := rel }
  else
    { L with inputConn := inp }

/-- Modelled from the spec: ReplaceLayer substitutes a freshly created layer
for `oldId` at its position, rewires every input slot that consumed the old
layer's output to the replacement's output, transfers the old layer's
upstream connection, and removes the old layer.  Fails (leaving the graph
unchanged) when the old layer does not exist or the slot arities differ. -/
def replaceLayer (g : Graph) (oldId : Nat) (k : LayerKind) (name : String)
    (info : Option TensorInfo) (rel : List String) : Option Graph :=
  match findLayer g oldId with
  | none => none
  | some old =>
      if (hasInputSlot k == hasInputSlot old.kind) &&
         (hasOutputSlot k == hasOutputSlot old.kind) then
        some { layers := g.layers.map (replaceFn oldId g.nextId k name info rel),
               nextId := g.nextId + 1 }
      else none

/-- Modelled from the spec: EraseLayer removes a layer whose output has been
fully rewired away (no remaining consumer) and whose input has been
disconnected; otherwise it fails and the graph is unchanged — it never
silently drops live edges. -/
def eraseLayer (g : Graph) (lid : Nat) : Option Graph :=
  match findLayer g lid with
  | none => none
  | some L =>
      if L.inputConn.isSome then none
      else if g.layers.any (fun M => M.inputConn == some lid) then none
      else some { g with layers := g.layers.filter (fun M => M.id != lid) }

/-- Modelled from the spec: SetTensorInfo resolves the TensorInfo held by a
layer's output handler. -/
def setTensorInfo (g : Graph) (lid : Nat) (info : TensorInfo) : Option Graph :=
  if g.layers.any (fun L => L.id == lid) then
    some { g with layers := g.layers.map (fun L =>
             if L.id = lid then { L with outInfo := some info } else L) }
  else none

/-- The upstream reference of one input slot is already resolved among the
identifiers seen so far. -/
def upstreamSeen (seen : List Nat) : Option Nat → Prop
  | none => True
  | some u => u ∈ seen

instance decUpstreamSeen (seen : List Nat) :
    (o : Option Nat) → Decidable (upstreamSeen seen o)
  | none => .isTrue trivial
  | some u => inferInstanceAs (Decidable (u ∈ seen))

/-- Topological consistency of a layer list relative to the identifiers
`seen` of layers already emitted: each layer's upstream is among the
already-seen identifiers. -/
def topoFrom (seen : List Nat) : List Layer → Prop
  | [] => True
  | L :: rest => upstreamSeen seen L.inputConn ∧ topoFrom (L.id :: seen) rest

instance decTopoFrom (seen : List Nat) :
    (l : List Layer) → Decidable (topoFrom seen l)
  | [] => .isTrue trivial
  | L :: rest =>
      @instDecidableAnd _ _ (decUpstreamSeen seen L.inputConn)
        (decTopoFrom (L.id :: seen) rest)

/-- The graph is in topological order: every upstream reference points to a
layer emitted earlier in iteration order. -/
def topoOrdered (g : Graph) : Prop := topoFrom [] g.layers

instance decTopoOrdered (g : Graph) : Decidable (topoOrdered g) :=
  decTopoFrom [] g.layers

/-- All layer identifiers are below the fresh-identifier counter. -/
def idsBound (g : Graph) : Prop := ∀ L ∈ g.layers, L.id < g.nextId

/-- Layer identifiers are pairwise distinct (stable handles). -/
def idsNodup (g : Graph) : Prop := (g.layers.map Layer.id).Nodup

/-- Slot well-formedness: a layer whose kind has no input slot carries no
upstream connection. -/
def slotsWF (g : Graph) : Prop :=
  ∀ L ∈ g.layers, hasInputSlot L.kind = false → L.inputConn = none

/-- The structural graph invariant: bounded fresh identifiers, distinct
identifiers, topological order and slot well-formedness. -/
def Inv (g : Graph) : Prop :=
  idsBound g ∧ idsNodup g ∧ topoOrdered g ∧ slotsWF g

instance decIdsBound (g : Graph) : Decidable (idsBound g) :=
  inferInstanceAs (Decidable (∀ L ∈ g.layers, L.id < g.nextId))

instance decSlotsWF (g : Graph) : Decidable (slotsWF g) :=
  inferInstanceAs
    (Decidable (∀ L ∈ g.layers, hasInputSlot L.kind = false → L.inputConn = none))

instance decIdsNodup (g : Graph) : Decidable (idsNodup g) :=
  List.nodupDecidable (g.layers.map Layer.id)

instance decInv (g : Graph) : Decidable (Inv g) :=
  @instDecidableAnd _ _ (decIdsBound g)
    (@instDecidableAnd _ _ (decIdsNodup g)
      (@instDecidableAnd _ _ (decTopoOrdered g) (decSlotsWF g)))

/-- Modelled from the spec: the Transpose-as-Reshape match condition — the
permutation vector, restricted to source dimensions of size greater than
one, is strictly increasing, i.e. applying the permutation does not change
the relative order of any pair of dimensions both greater than size 1. -/
def transposeIsReshape (inShape perm : List Nat) : Bool :=
  decide (List.Pairwise (· < ·) (perm.filter (fun p => 1 < inShape.getD p 0)))

/-- The permutation parameter of a Transpose-kind layer, `none` for every
other kind. -/
def kindPerm : LayerKind → Option (List Nat)
  | .transpose perm => some perm
  | _ => none

/-- Modelled from the spec: the pure pattern match of the Transpose-as-
Reshape rule rooted at layer `lid` — the layer is Transpose-kind, its input
slot is connected to an upstream layer whose TensorInfo is resolved, its own
output TensorInfo is resolved, and the permutation only moves size-1
dimensions.  On success it returns the matched layer together with its
already-resolved output TensorInfo. -/
def tarMatch (g : Graph) (lid : Nat) : Option (Layer × TensorInfo) :=
  (findLayer g lid).bind (fun L =>
    (kindPerm L.kind).bind (fun perm =>
      L.inputConn.bind (fun u =>
        ((findLayer g u).bind Layer.outInfo).bind (fun inInfo =>
          L.outInfo.bind (fun outInfo =>
            if transposeIsReshape inInfo.shape perm
            then some (L, outInfo) else none)))))

/-- Modelled from the spec: the Transpose-as-Reshape rewrite — when the
pattern matches, create a Reshape-kind layer whose target is the Transpose's
already-resolved output shape and call ReplaceLayer to substitute it,
recording the original layer's debug name in the replacement's related-layers
side-table. -/
def tryTAR (g : Graph) (lid : Nat) : Option Graph :=
  match tarMatch g lid with
  | none => none
  | some (L, outInfo) =>
      replaceLayer g lid (.reshape outInfo.shape)
        ("as_reshape-" ++ L.name) (some outInfo) (L.related ++ [L.name])

/-- The catalog entries available in this fragment: the Transpose-as-Reshape
rewrite rule. -/
inductive OptRule where
  | transposeAsReshape
deriving DecidableEq

/-- Offer one layer to one rule. -/
def runRule : OptRule → Graph → Nat → Option Graph
  | .transposeAsReshape => tryTAR

/-- Offer one layer to every rule of the catalog in catalog order; the first
match triggers its rewrite. -/
def offerAll (cat : List OptRule) (g : Graph) (lid : Nat) : Option Graph :=
  match cat with
  | [] => none
  | r :: rest =>
      match runRule r g lid with
      | some g2 => some g2
      | none => offerAll rest g lid

/-- Single linear traversal of the optimizer: offer each recorded layer
identifier (in iteration order) to the catalog; a rewrite continues the
traversal from the next remaining layer, and layers created by a rewrite are
not re-offered within the same pass. -/
def passAux (cat : List OptRule) (g : Graph) : List Nat → Graph
  | [] => g
  | lid :: rest =>
      match offerAll cat g lid with
      | some g2 => passAux cat g2 rest
      | none => passAux cat g rest

/-- Modelled from the spec: one Optimizer pass over the graph with the given
catalog — a single linear traversal over the layers in iteration order. -/
def Optimizer.Pass (g : Graph) (cat : List OptRule) : Graph :=
  passAux cat g (g.layers.map Layer.id)

/-! ### Lemmas on the topological-order predicate -/

theorem upstreamSeen_mono {seen seen2 : List Nat} (hsub : seen ⊆ seen2) :
    ∀ {o : Option Nat}, upstreamSeen seen o → upstreamSeen seen2 o
  | none, _ => trivial
  | some _, h => hsub h

theorem topoFrom_mono :
    ∀ {l : List Layer} {seen seen2 : List Nat},
      seen ⊆ seen2 → topoFrom seen l → topoFrom seen2 l
  | [], _, _, _, _ => trivial
  | L :: _, _, _, hsub, ⟨h1, h2⟩ =>
      ⟨upstreamSeen_mono hsub h1,
       topoFrom_mono (List.cons_subset_cons L.id hsub) h2⟩

theorem topoFrom_append {newL : Layer} (hnew : newL.inputConn = none) :
    ∀ {l : List Layer} {seen : List Nat},
      topoFrom seen l → topoFrom seen (l ++ [newL])
  | [], seen, _ => ⟨by rw [hnew]; trivial, trivial⟩
  | _ :: _, _, ⟨h1, h2⟩ => ⟨h1, topoFrom_append hnew h2⟩

theorem topoFrom_splice {tid nid : Nat} {newL : Layer} (hid : newL.id = nid) :
    ∀ {l : List Layer} {seen : List Nat},
      topoFrom seen l →
      (∀ x ∈ l, x.id = tid → x.inputConn = newL.inputConn) →
      topoFrom seen (spliceAux tid nid newL l)
  | [], _, _, _ => trivial
  | x :: xs, seen, ⟨h1, h2⟩, hmatch => by
      by_cases hx : x.id = tid
      · have hsp : spliceAux tid nid newL (x :: xs) =
            newL :: { x with inputConn := some nid } :: xs := by
          show (if x.id = tid then newL :: { x with inputConn := some nid } :: xs
            else x :: spliceAux tid nid newL xs) = _
          rw [if_pos hx]
        rw [hsp]
        refine ⟨?_, ?_, ?_⟩
        · have := hmatch x (List.mem_cons_self x xs) hx
          rw [← this]; exact h1
        · show upstreamSeen (newL.id :: seen) (some nid)
          simp [upstreamSeen, hid]
        · show topoFrom (x.id :: newL.id :: seen) xs
          exact topoFrom_mono
            (List.cons_subset_cons x.id (fun a ha => List.mem_cons_of_mem newL.id ha)) h2
      · have hsp : spliceAux tid nid newL (x :: xs) =
            x :: spliceAux tid nid newL xs := by
          show (if x.id = tid then newL :: { x with inputConn := some nid } :: xs
            else x :: spliceAux tid nid newL xs) = _
          rw [if_neg hx]
        rw [hsp]
        exact ⟨h1, topoFrom_splice hid h2
          (fun y hy hyid => hmatch y (List.mem_cons_of_mem x hy) hyid)⟩

theorem topoFrom_strengthen {a : Nat} :
    ∀ {l : List Layer} {s1 s2 : List Nat},
      topoFrom (s1 ++ a :: s2) l →
      (∀ y ∈ l, y.inputConn ≠ some a) → topoFrom (s1 ++ s2) l
  | [], _, _, _, _ => trivial
  | L :: rest, s1, s2, ⟨h1, h2⟩, hne => by
      refine ⟨?_, ?_⟩
      · cases hconn : L.inputConn with
        | none => trivial
        | some u =>
            have hu : u ∈ s1 ++ a :: s2 := by rw [hconn] at h1; exact h1
            have hua : u ≠ a := by
              intro h
              exact hne L (List.mem_cons_self L rest) (by rw [hconn, h])
            show u ∈ s1 ++ s2
            rcases List.mem_append.mp hu with h | h
            · exact List.mem_append.mpr (Or.inl h)
            · rcases List.mem_cons.mp h with h | h
              · exact absurd h hua
              · exact List.mem_append.mpr (Or.inr h)
      · exact @topoFrom_strengthen a rest (L.id :: s1) s2 h2
          (fun y hy => hne y (List.mem_cons_of_mem L hy))

theorem topoFrom_filter_out {lid : Nat} :
    ∀ {l : List Layer} {seen : List Nat},
      topoFrom seen l →
      (∀ x ∈ l, x.inputConn ≠ some lid) →
      topoFrom seen (l.filter (fun M => M.id != lid))
  | [], _, _, _ => trivial
  | x :: xs, seen, ⟨h1, h2⟩, hne => by
      by_cases hx : x.id = lid
      · have hfe : (x :: xs).filter (fun M => M.id != lid) =
            xs.filter (fun M => M.id != lid) := by
          simp [List.filter_cons, hx]
        rw [hfe]
        have h2b : topoFrom ([] ++ lid :: seen) xs := by
          rw [hx] at h2; exact h2
        have hxs : topoFrom seen xs :=
          @topoFrom_strengthen lid xs [] seen h2b
            (fun y hy => hne y (List.mem_cons_of_mem x hy))
        exact topoFrom_filter_out hxs
          (fun y hy => hne y (List.mem_cons_of_mem x hy))
      · have hfe : (x :: xs).filter (fun M => M.id != lid) =
            x :: xs.filter (fun M => M.id != lid) := by
          simp [List.filter_cons, hx]
        rw [hfe]
        exact ⟨h1, topoFrom_filter_out h2
          (fun y hy => hne y (List.mem_cons_of_mem x hy))⟩

theorem replaceFn_id {oldId nid : Nat} {k : LayerKind} {name : String}
    {info : Option TensorInfo} {rel : List String} (L : Layer) :
    (replaceFn oldId nid k name info rel L).id = renameId oldId nid L.id := by
  unfold replaceFn renameId
  by_cases h : L.id = oldId <;> simp [h]

theorem replaceFn_inputConn {oldId nid : Nat} {k : LayerKind} {name : String}
    {info : Option TensorInfo} {rel : List String} (L : Layer) :
    (replaceFn oldId nid k name info rel L).inputConn =
      L.inputConn.map (renameId oldId nid) := by
  unfold replaceFn
  by_cases h : L.id = oldId <;> simp [h]

theorem replaceFn_kind_ne {oldId nid : Nat} {k : LayerKind} {name : String}
    {info : Option TensorInfo} {rel : List String} {L : Layer}
    (h : L.id ≠ oldId) :
    (replaceFn oldId nid k name info rel L).kind = L.kind := by
  unfold replaceFn; simp [h]

theorem replaceFn_outInfo_ne {oldId nid : Nat} {k : LayerKind} {name : String}
    {info : Option TensorInfo} {rel : List String} {L : Layer}
    (h : L.id ≠ oldId) :
    (replaceFn oldId nid k name info rel L).outInfo = L.outInfo := by
  unfold replaceFn; simp [h]

theorem replaceFn_name_ne {oldId nid : Nat} {k : LayerKind} {name : String}
    {info : Option TensorInfo} {rel : List String} {L : Layer}
    (h : L.id ≠ oldId) :
    (replaceFn oldId nid k name info rel L).name = L.name := by
  unfold replaceFn; simp [h]

theorem replaceFn_eq_old {oldId nid : Nat} {k : LayerKind} {name : String}
    {info : Option TensorInfo} {rel : List String} {L : Layer}
    (h : L.id = oldId) :
    replaceFn oldId nid k name info rel L =
      { id := nid, name := name, kind := k,
        inputConn := L.inputConn.map (renameId oldId nid),
        outInfo := info, related := rel } := by
  unfold replaceFn; simp [h]

theorem topoFrom_map_replace {oldId nid : Nat} {k : LayerKind} {name : String}
    {info : Option TensorInfo} {rel : List String} :
    ∀ {l : List Layer} {seen : List Nat},
      topoFrom seen l →
      topoFrom (seen.map (renameId oldId nid))
        (l.map (replaceFn oldId nid k name info rel))
  | [], _, _ => trivial
  | L :: rest, seen, ⟨h1, h2⟩ => by
      refine ⟨?_, ?_⟩
      · rw [replaceFn_inputConn]
        cases hconn : L.inputConn with
        | none => trivial
        | some u =>
            have hu : u ∈ seen := by rw [hconn] at h1; exact h1
            exact List.mem_map_of_mem (renameId oldId nid) hu
      · rw [replaceFn_id]
        show topoFrom ((L.id :: seen).map (renameId oldId nid))
          (rest.map (replaceFn oldId nid k name info rel))
        exact topoFrom_map_replace h2

theorem topoFrom_map_setInfo {lid : Nat} {info : TensorInfo} :
    ∀ {l : List Layer} {seen : List Nat},
      topoFrom seen l →
      topoFrom seen (l.map (fun L =>
        if L.id = lid then { L with outInfo := some info } else L))
  | [], _, _ => trivial
  | L :: rest, seen, ⟨h1, h2⟩ => by
      refine ⟨?_, ?_⟩
      · by_cases h : L.id = lid <;> simp only [h, if_pos, if_neg,
          not_false_iff] <;> exact h1
      · have hid : (if L.id = lid then { L with outInfo := some info }
            else L).id = L.id := by
          by_cases h : L.id = lid <;> simp [h]
        rw [hid]
        exact topoFrom_map_setInfo h2

theorem topoFrom_upstream_mem :
    ∀ {l : List Layer} {seen : List Nat}, topoFrom seen l →
      ∀ {x : Layer}, x ∈ l → ∀ {u : Nat}, x.inputConn = some u →
        u ∈ seen ∨ u ∈ l.map Layer.id
  | L :: rest, seen, ⟨h1, h2⟩, x, hx, u, hu => by
      rcases List.mem_cons.mp hx with h | h
      · subst h
        rw [hu] at h1
        exact Or.inl h1
      · rcases topoFrom_upstream_mem h2 h hu with hs | hs
        · rcases List.mem_cons.mp hs with hs2 | hs2
          · refine Or.inr ?_
            rw [List.map_cons, hs2]
            exact List.mem_cons_self L.id (rest.map Layer.id)
          · exact Or.inl hs2
        · refine Or.inr ?_
          rw [List.map_cons]
          exact List.mem_cons_of_mem L.id hs

theorem topoFrom_get :
    ∀ {l : List Layer} {seen : List Nat}, topoFrom seen l →
      ∀ (j : Nat) (hj : j < l.length) (u : Nat),
        (l.get ⟨j, hj⟩).inputConn = some u →
        u ∈ seen ∨ ∃ i, ∃ hi : i < l.length, i < j ∧ (l.get ⟨i, hi⟩).id = u
  | L :: rest, seen, ⟨h1, h2⟩, j, hj, u, hu => by
      cases j with
      | zero =>
          simp only [List.get] at hu
          rw [hu] at h1
          exact Or.inl h1
      | succ j2 =>
          have hj2 : j2 < rest.length := Nat.lt_of_succ_lt_succ hj
          have hget : (L :: rest).get ⟨j2 + 1, hj⟩ = rest.get ⟨j2, hj2⟩ := rfl
          rcases topoFrom_get h2 j2 hj2 u (by rw [← hget]; exact hu) with
            hs | ⟨i, hi, hij, hid⟩
          · rcases List.mem_cons.mp hs with hs | hs
            · exact Or.inr ⟨0, Nat.succ_pos _, Nat.succ_pos _, hs.symm⟩
            · exact Or.inl hs
          · exact Or.inr ⟨i + 1, Nat.succ_lt_succ hi,
              Nat.succ_lt_succ hij, hid⟩

/-! ### Membership, identifier and lookup lemmas for the list surgeries -/

theorem mem_spliceAux {tid nid : Nat} {newL : Layer} :
    ∀ {l : List Layer} {x : Layer}, x ∈ spliceAux tid nid newL l →
      x = newL ∨ (∃ y ∈ l, y.id = tid ∧ x = { y with inputConn := some nid }) ∨
      x ∈ l
  | x0 :: xs, x, hx => by
      by_cases h0 : x0.id = tid
      · have hsp : spliceAux tid nid newL (x0 :: xs) =
            newL :: { x0 with inputConn := some nid } :: xs := by
          show (if x0.id = tid then newL :: { x0 with inputConn := some nid } :: xs
            else x0 :: spliceAux tid nid newL xs) = _
          rw [if_pos h0]
        rw [hsp] at hx
        rcases List.mem_cons.mp hx with h | h
        · exact Or.inl h
        · rcases List.mem_cons.mp h with h | h
          · exact Or.inr (Or.inl ⟨x0, List.mem_cons_self x0 xs, h0, h⟩)
          · exact Or.inr (Or.inr (List.mem_cons_of_mem x0 h))
      · have hsp : spliceAux tid nid newL (x0 :: xs) =
            x0 :: spliceAux tid nid newL xs := by
          show (if x0.id = tid then newL :: { x0 with inputConn := some nid } :: xs
            else x0 :: spliceAux tid nid newL xs) = _
          rw [if_neg h0]
        rw [hsp] at hx
        rcases List.mem_cons.mp hx with h | h
        · exact Or.inr (Or.inr (by rw [h]; exact List.mem_cons_self x0 xs))
        · rcases mem_spliceAux h with h | h | h
          · exact Or.inl h
          · rcases h with ⟨y, hy, hyid, hxy⟩
            exact Or.inr (Or.inl ⟨y, List.mem_cons_of_mem x0 hy, hyid, hxy⟩)
          · exact Or.inr (Or.inr (List.mem_cons_of_mem x0 h))

theorem id_mem_spliceAux {tid nid : Nat} {newL : Layer} (hid : newL.id = nid)
    {l : List Layer} {x : Layer} (hx : x ∈ spliceAux tid nid newL l) :
    x.id = nid ∨ x.id ∈ l.map Layer.id := by
  rcases mem_spliceAux hx with h | h | h
  · exact Or.inl (by rw [h, hid])
  · rcases h with ⟨y, hy, _, hxy⟩
    refine Or.inr ?_
    rw [hxy]
    show y.id ∈ l.map Layer.id
    exact List.mem_map_of_mem Layer.id hy
  · exact Or.inr (List.mem_map_of_mem Layer.id h)

theorem nodup_spliceAux {tid nid : Nat} {newL : Layer} (hid : newL.id = nid) :
    ∀ {l : List Layer}, (l.map Layer.id).Nodup → (∀ x ∈ l, x.id < nid) →
      ((spliceAux tid nid newL l).map Layer.id).Nodup
  | [], _, _ => by simp [spliceAux]
  | x0 :: xs, hnd, hb => by
      have hnd0 : x0.id ∉ xs.map Layer.id := by
        rw [List.map_cons] at hnd
        exact (List.nodup_cons.mp hnd).1
      have hndxs : (xs.map Layer.id).Nodup := by
        rw [List.map_cons] at hnd
        exact (List.nodup_cons.mp hnd).2
      by_cases h0 : x0.id = tid
      · have hsp : spliceAux tid nid newL (x0 :: xs) =
            newL :: { x0 with inputConn := some nid } :: xs := by
          show (if x0.id = tid then newL :: { x0 with inputConn := some nid } :: xs
            else x0 :: spliceAux tid nid newL xs) = _
          rw [if_pos h0]
        rw [hsp, List.map_cons, List.map_cons]
        refine List.nodup_cons.mpr ⟨?_, List.nodup_cons.mpr ⟨hnd0, hndxs⟩⟩
        rw [hid]
        intro hmem
        rcases List.mem_cons.mp hmem with h | h
        · exact absurd h.symm
            (Nat.ne_of_lt (hb x0 (List.mem_cons_self x0 xs)))
        · rcases List.mem_map.mp h with ⟨y, hy, hyid⟩
          exact absurd hyid (Nat.ne_of_lt (hb y (List.mem_cons_of_mem x0 hy)))
      · have hsp : spliceAux tid nid newL (x0 :: xs) =
            x0 :: spliceAux tid nid newL xs := by
          show (if x0.id = tid then newL :: { x0 with inputConn := some nid } :: xs
            else x0 :: spliceAux tid nid newL xs) = _
          rw [if_neg h0]
        rw [hsp, List.map_cons]
        refine List.nodup_cons.mpr ⟨?_, nodup_spliceAux hid hndxs
          (fun y hy => hb y (List.mem_cons_of_mem x0 hy))⟩
        intro hmem
        rcases List.mem_map.mp hmem with ⟨y, hy, hyid⟩
        rcases id_mem_spliceAux hid hy with h | h
        · rw [hyid] at h
          exact absurd h (Nat.ne_of_lt (hb x0 (List.mem_cons_self x0 xs)))
        · rw [hyid] at h
          exact hnd0 h

theorem find?_id_unique :
    ∀ {l : List Layer}, (l.map Layer.id).Nodup → ∀ {tid : Nat} {tgt : Layer},
      l.find? (fun L => L.id == tid) = some tgt →
      ∀ {y : Layer}, y ∈ l → y.id = tid → y = tgt
  | x0 :: xs, hnd, tid, tgt, hf, y, hy, hyid => by
      have hnd0 : x0.id ∉ xs.map Layer.id := by
        rw [List.map_cons] at hnd
        exact (List.nodup_cons.mp hnd).1
      have hndxs : (xs.map Layer.id).Nodup := by
        rw [List.map_cons] at hnd
        exact (List.nodup_cons.mp hnd).2
      by_cases h0 : x0.id = tid
      · have : (x0 :: xs).find? (fun L => L.id == tid) = some x0 := by
          rw [List.find?_cons_of_pos]
          exact beq_iff_eq.mpr h0
        rw [this] at hf
        cases hf
        rcases List.mem_cons.mp hy with h | h
        · exact h
        · have hmem : y.id ∈ xs.map Layer.id := List.mem_map_of_mem Layer.id h
          rw [hyid, ← h0] at hmem
          exact absurd hmem hnd0
      · have : (x0 :: xs).find? (fun L => L.id == tid) =
            xs.find? (fun L => L.id == tid) := by
          rw [List.find?_cons_of_neg]
          simp [h0]
        rw [this] at hf
        rcases List.mem_cons.mp hy with h | h
        · exact absurd (by rw [← h]; exact hyid) h0
        · exact find?_id_unique hndxs hf h hyid

theorem findLayer_mem {g : Graph} {lid : Nat} {L : Layer}
    (h : findLayer g lid = some L) : L ∈ g.layers ∧ L.id = lid := by
  refine ⟨List.mem_of_find?_eq_some h, ?_⟩
  have := List.find?_some h
  exact beq_iff_eq.mp this

theorem findLayer_isSome_of_mem {g : Graph} {u : Nat}
    (h : u ∈ g.layers.map Layer.id) : ∃ U, findLayer g u = some U := by
  rcases List.mem_map.mp h with ⟨U, hU, hUid⟩
  have : (g.layers.find? (fun L => L.id == u)).isSome := by
    rw [List.find?_isSome]
    exact ⟨U, hU, beq_iff_eq.mpr hUid⟩
  rcases Option.isSome_iff_exists.mp this with ⟨V, hV⟩
  exact ⟨V, hV⟩

theorem find?_map_replace_ne {oldId nid : Nat} {k : LayerKind} {name : String}
    {info : Option TensorInfo} {rel : List String} {q : Nat}
    (hq1 : q ≠ oldId) (hq2 : q ≠ nid) :
    ∀ {l : List Layer},
      (l.map (replaceFn oldId nid k name info rel)).find?
          (fun L => L.id == q) =
        (l.find? (fun L => L.id == q)).map (replaceFn oldId nid k name info rel)
  | [] => rfl
  | x :: xs => by
      have hiff : ((replaceFn oldId nid k name info rel x).id == q) =
          (x.id == q) := by
        rw [replaceFn_id]
        unfold renameId
        by_cases h : x.id = oldId
        · rw [if_pos h]
          have h1 : (nid == q) = false := beq_eq_false_iff_ne.mpr
            (fun hc => hq2 hc.symm)
          have h2 : (x.id == q) = false := beq_eq_false_iff_ne.mpr
            (fun hc => hq1 (by rw [← hc, h]))
          rw [h1, h2]
        · rw [if_neg h]
      rw [List.map_cons, List.find?_cons, List.find?_cons, hiff]
      cases hx : (x.id == q) with
      | true => simp
      | false =>
          simp only [Bool.false_eq_true, if_false]
          exact find?_map_replace_ne hq1 hq2

theorem find?_map_replace_new {oldId nid : Nat} {k : LayerKind} {name : String}
    {info : Option TensorInfo} {rel : List String} :
    ∀ {l : List Layer}, (∀ x ∈ l, x.id < nid) →
      (l.map (replaceFn oldId nid k name info rel)).find?
          (fun L => L.id == nid) =
        (l.find? (fun L => L.id == oldId)).map
          (replaceFn oldId nid k name info rel)
  | [], _ => rfl
  | x :: xs, hb => by
      rw [List.map_cons, List.find?_cons, List.find?_cons]
      by_cases hx : x.id = oldId
      · have h1 : ((replaceFn oldId nid k name info rel x).id == nid) =
            true := by
          rw [replaceFn_id]
          unfold renameId
          rw [if_pos hx]
          exact beq_self_eq_true nid
        have h2 : (x.id == oldId) = true := beq_iff_eq.mpr hx
        rw [h1, h2]
        simp
      · have h1 : ((replaceFn oldId nid k name info rel x).id == nid) =
            false := by
          rw [replaceFn_id]
          unfold renameId
          rw [if_neg hx]
          have hlt : x.id ≠ nid := Nat.ne_of_lt (hb x (List.mem_cons_self x xs))
          simp [hlt]
        have h2 : (x.id == oldId) = false := by simp [hx]
        rw [h1, h2]
        simp only [Bool.false_eq_true, if_false]
        exact find?_map_replace_new (fun y hy =>
          hb y (List.mem_cons_of_mem x hy))

theorem find?_map_replace_old_none {oldId nid : Nat} {k : LayerKind}
    {name : String} {info : Option TensorInfo} {rel : List String}
    {l : List Layer} (hb : ∀ x ∈ l, x.id < nid) :
    (l.map (replaceFn oldId nid k name info rel)).find?
        (fun L => L.id == oldId) = none := by
  rw [List.find?_eq_none]
  intro x hx
  rcases List.mem_map.mp hx with ⟨y, hy, hxy⟩
  rw [← hxy, replaceFn_id]
  unfold renameId
  by_cases h : y.id = oldId
  · rw [if_pos h]
    have hne : nid ≠ oldId := by
      intro hc
      exact absurd (h.trans hc.symm) (Nat.ne_of_lt (hb y hy))
    simp [hne]
  · rw [if_neg h]
    simp [h]

/-! ### Invariant preservation for every graph mutator -/

theorem inv_addLayer {g : Graph} (h : Inv g) (k : LayerKind) (name : String) :
    Inv (addLayer g k name).1 := by
  obtain ⟨hb, hn, ht, hs⟩ := h
  refine ⟨?_, ?_, ?_, ?_⟩
  · intro L hL
    rcases List.mem_append.mp hL with h2 | h2
    · exact Nat.lt_succ_of_lt (hb L h2)
    · rw [List.mem_singleton.mp h2]
      exact Nat.lt_succ_self _
  · show ((g.layers ++ [_]).map Layer.id).Nodup
    rw [List.map_append, List.nodup_append]
    refine ⟨hn, List.nodup_singleton _, ?_⟩
    intro a ha hmem
    rcases List.mem_map.mp ha with ⟨y, hy, hyid⟩
    have h1 : a = g.nextId := List.mem_singleton.mp hmem
    rw [← hyid] at h1
    exact absurd h1 (Nat.ne_of_lt (hb y hy))
  · exact topoFrom_append rfl ht
  · intro L hL hkind
    rcases List.mem_append.mp hL with h2 | h2
    · exact hs L h2 hkind
    · rw [List.mem_singleton.mp h2]

theorem inv_insertNewLayer {g g2 : Graph} {t nid : Nat} {k : LayerKind}
    {name : String} (h : Inv g)
    (heq : insertNewLayer g t k name = some (g2, nid)) : Inv g2 := by
  obtain ⟨hb, hn, ht, hs⟩ := h
  unfold insertNewLayer at heq
  cases hf : findLayer g t with
  | none => rw [hf] at heq; exact absurd heq (by simp)
  | some tgt =>
      rw [hf] at heq
      dsimp only at heq
      by_cases h1 : hasInputSlot tgt.kind = false
      · rw [if_pos h1] at heq; exact absurd heq (by simp)
      · rw [if_neg h1] at heq
        by_cases h2 : hasOutputSlot k = false
        · rw [if_pos h2] at heq; exact absurd heq (by simp)
        · rw [if_neg h2] at heq
          by_cases h3 : (tgt.inputConn.isSome && !hasInputSlot k) = true
          · rw [if_pos h3] at heq; exact absurd heq (by simp)
          · rw [if_neg h3] at heq
            simp only [Option.some.injEq, Prod.mk.injEq] at heq
            obtain ⟨rfl, rfl⟩ := heq
            have htgt := findLayer_mem hf
            have hid : ({ id := g.nextId, name := name, kind := k,
                          inputConn := tgt.inputConn, outInfo := none,
                          related := [] } : Layer).id = g.nextId := rfl
            refine ⟨?_, ?_, ?_, ?_⟩
            · intro L hL
              rcases id_mem_spliceAux hid hL with h4 | h4
              · rw [h4]; exact Nat.lt_succ_self _
              · rcases List.mem_map.mp h4 with ⟨y, hy, hyid⟩
                rw [← hyid]
                exact Nat.lt_succ_of_lt (hb y hy)
            · exact nodup_spliceAux hid hn hb
            · show topoFrom [] (spliceAux t g.nextId _ g.layers)
              refine topoFrom_splice hid ht ?_
              intro x hx hxid
              rw [find?_id_unique hn hf hx hxid]
            · intro L hL hkind
              rcases mem_spliceAux hL with h4 | h4 | h4
              · rw [h4]
                rw [h4] at hkind
                show tgt.inputConn = none
                rw [hkind] at h3
                cases hio : tgt.inputConn with
                | none => rfl
                | some v => rw [hio] at h3; simp at h3
              · rcases h4 with ⟨y, hy, hyid, hxy⟩
                rw [hxy] at hkind
                have hyt : y = tgt := find?_id_unique hn hf hy hyid
                rw [hyt] at hkind
                exact absurd hkind h1
              · exact hs L h4 hkind

theorem inv_replaceLayer {g g2 : Graph} {oldId : Nat} {k : LayerKind}
    {name : String} {info : Option TensorInfo} {rel : List String}
    (h : Inv g) (heq : replaceLayer g oldId k name info rel = some g2) :
    Inv g2 := by
  obtain ⟨hb, hn, ht, hs⟩ := h
  unfold replaceLayer at heq
  cases hf : findLayer g oldId with
  | none => rw [hf] at heq; exact absurd heq (by simp)
  | some old =>
      rw [hf] at heq
      dsimp only at heq
      by_cases har : ((hasInputSlot k == hasInputSlot old.kind) &&
          (hasOutputSlot k == hasOutputSlot old.kind)) = true
      · rw [if_pos har] at heq
        simp only [Option.some.injEq] at heq
        subst heq
        refine ⟨?_, ?_, ?_, ?_⟩
        · intro L hL
          rcases List.mem_map.mp hL with ⟨y, hy, hxy⟩
          rw [← hxy, replaceFn_id]
          unfold renameId
          by_cases hy2 : y.id = oldId
          · rw [if_pos hy2]; exact Nat.lt_succ_self _
          · rw [if_neg hy2]; exact Nat.lt_succ_of_lt (hb y hy)
        · show ((g.layers.map _).map Layer.id).Nodup
          have hmm : (g.layers.map
                (replaceFn oldId g.nextId k name info rel)).map Layer.id =
              (g.layers.map Layer.id).map (renameId oldId g.nextId) := by
            rw [List.map_map, List.map_map]
            exact List.map_congr_left (fun a _ => replaceFn_id a)
          rw [hmm]
          refine List.Nodup.map_on ?_ hn
          intro a ha b hbm hab
          unfold renameId at hab
          by_cases ha2 : a = oldId
          · by_cases hb2 : b = oldId
            · rw [ha2, hb2]
            · rw [if_pos ha2, if_neg hb2] at hab
              rcases List.mem_map.mp hbm with ⟨y, hy, hyid⟩
              have hblt : b < g.nextId := by
                rw [← hyid]; exact hb y hy
              exact absurd hab.symm (Nat.ne_of_lt hblt)
          · by_cases hb2 : b = oldId
            · rw [if_neg ha2, if_pos hb2] at hab
              rcases List.mem_map.mp ha with ⟨y, hy, hyid⟩
              have halt : a < g.nextId := by
                rw [← hyid]; exact hb y hy
              exact absurd hab (Nat.ne_of_lt halt)
            · rw [if_neg ha2, if_neg hb2] at hab
              exact hab
        · exact topoFrom_map_replace ht
        · intro L hL hkind
          rcases List.mem_map.mp hL with ⟨y, hy, hxy⟩
          rw [← hxy] at hkind ⊢
          by_cases hy2 : y.id = oldId
          · rw [replaceFn_eq_old hy2] at hkind ⊢
            have hark : hasInputSlot k = hasInputSlot old.kind := by
              have := (Bool.and_eq_true _ _).mp har
              exact beq_iff_eq.mp this.1
            have hyold : y = old := find?_id_unique hn hf hy hy2
            have : y.inputConn = none := by
              rw [hyold]
              exact hs old (findLayer_mem hf).1 (by rw [← hark]; exact hkind)
            show y.inputConn.map _ = none
            rw [this]
            rfl
          · rw [replaceFn_kind_ne hy2] at hkind
            have : y.inputConn = none := hs y hy hkind
            show (replaceFn _ _ _ _ _ _ y).inputConn = none
            rw [replaceFn_inputConn, this]
            rfl
      · rw [if_neg har] at heq; exact absurd heq (by simp)

theorem inv_eraseLayer {g g2 : Graph} {lid : Nat} (h : Inv g)
    (heq : eraseLayer g lid = some g2) : Inv g2 := by
  obtain ⟨hb, hn, ht, hs⟩ := h
  unfold eraseLayer at heq
  cases hf : findLayer g lid with
  | none => rw [hf] at heq; exact absurd heq (by simp)
  | some L =>
      rw [hf] at heq
      dsimp only at heq
      by_cases h1 : L.inputConn.isSome = true
      · rw [if_pos h1] at heq; exact absurd heq (by simp)
      · rw [if_neg h1] at heq
        by_cases h2 : (g.layers.any (fun M => M.inputConn == some lid)) = true
        · rw [if_pos h2] at heq; exact absurd heq (by simp)
        · rw [if_neg h2] at heq
          simp only [Option.some.injEq] at heq
          subst heq
          have hnoc : ∀ x ∈ g.layers, x.inputConn ≠ some lid := by
            intro x hx hc
            apply h2
            rw [List.any_eq_true]
            exact ⟨x, hx, by rw [hc]; simp⟩
          refine ⟨?_, ?_, ?_, ?_⟩
          · intro M hM
            exact hb M (List.mem_of_mem_filter hM)
          · exact List.Nodup.sublist
              (List.Sublist.map Layer.id (List.filter_sublist g.layers)) hn
          · exact topoFrom_filter_out ht hnoc
          · intro M hM hkind
            exact hs M (List.mem_of_mem_filter hM) hkind

theorem inv_setTensorInfo {g g2 : Graph} {lid : Nat} {info : TensorInfo}
    (h : Inv g) (heq : setTensorInfo g lid info = some g2) : Inv g2 := by
  obtain ⟨hb, hn, ht, hs⟩ := h
  unfold setTensorInfo at heq
  by_cases h1 : (g.layers.any (fun L => L.id == lid)) = true
  · rw [if_pos h1] at heq
    simp only [Option.some.injEq] at heq
    subst heq
    refine ⟨?_, ?_, ?_, ?_⟩
    · intro L hL
      rcases List.mem_map.mp hL with ⟨y, hy, hxy⟩
      have hid : L.id = y.id := by
        rw [← hxy]
        by_cases hc : y.id = lid <;> simp [hc]
      rw [hid]
      exact hb y hy
    · have hmm : (g.layers.map (fun L =>
            if L.id = lid then { L with outInfo := some info } else L)).map
            Layer.id = g.layers.map Layer.id := by
        rw [List.map_map]
        refine List.map_congr_left ?_
        intro a _
        by_cases hc : a.id = lid <;> simp [hc]
      show ((g.layers.map _).map Layer.id).Nodup
      rw [hmm]
      exact hn
    · exact topoFrom_map_setInfo ht
    · intro L hL hkind
      rcases List.mem_map.mp hL with ⟨y, hy, hxy⟩
      by_cases hc : y.id = lid
      · rw [← hxy, if_pos hc] at hkind ⊢
        exact hs y hy hkind
      · rw [← hxy, if_neg hc] at hkind ⊢
        exact hs y hy hkind
  · rw [if_neg h1] at heq
    exact absurd heq (by simp)

/-! ### Lemmas on the Transpose-as-Reshape rule and the Optimizer pass -/

theorem findLayer_mk {l : List Layer} {n m : Nat} :
    findLayer { layers := l, nextId := n } m = l.find? (fun L => L.id == m) :=
  rfl

theorem kindPerm_eq_some {k : LayerKind} {perm : List Nat}
    (h : kindPerm k = some perm) : k = .transpose perm := by
  cases k with
  | input => exact absurd h (by simp [kindPerm])
  | output => exact absurd h (by simp [kindPerm])
  | reshape s => exact absurd h (by simp [kindPerm])
  | transpose p =>
      have hp : p = perm := by simpa [kindPerm] using h
      rw [hp]

theorem tarMatch_some_elim {g : Graph} {lid : Nat} {L : Layer} {o : TensorInfo}
    (h : tarMatch g lid = some (L, o)) :
    findLayer g lid = some L ∧ L.outInfo = some o ∧
      ∃ perm u inInfo, L.kind = .transpose perm ∧ L.inputConn = some u ∧
        (findLayer g u).bind Layer.outInfo = some inInfo ∧
        transposeIsReshape inInfo.shape perm = true := by
  unfold tarMatch at h
  rw [Option.bind_eq_some] at h
  obtain ⟨L2, hL2, h⟩ := h
  rw [Option.bind_eq_some] at h
  obtain ⟨perm, hperm, h⟩ := h
  rw [Option.bind_eq_some] at h
  obtain ⟨u, hu, h⟩ := h
  rw [Option.bind_eq_some] at h
  obtain ⟨inInfo, hin, h⟩ := h
  rw [Option.bind_eq_some] at h
  obtain ⟨outInfo, hout, h⟩ := h
  by_cases hp : transposeIsReshape inInfo.shape perm = true
  · rw [if_pos hp] at h
    simp only [Option.some.injEq, Prod.mk.injEq] at h
    obtain ⟨rfl, rfl⟩ := h
    exact ⟨hL2, hout, perm, u, inInfo, kindPerm_eq_some hperm, hu, hin, hp⟩
  · rw [if_neg hp] at h
    exact absurd h (by simp)

theorem tryTAR_some_elim {g g2 : Graph} {lid : Nat}
    (h : tryTAR g lid = some g2) :
    ∃ L o, tarMatch g lid = some (L, o) ∧
      replaceLayer g lid (.reshape o.shape) ("as_reshape-" ++ L.name)
        (some o) (L.related ++ [L.name]) = some g2 := by
  unfold tryTAR at h
  cases hm : tarMatch g lid with
  | none => rw [hm] at h; exact absurd h (by simp)
  | some p =>
      obtain ⟨L, o⟩ := p
      rw [hm] at h
      exact ⟨L, o, rfl, h⟩

theorem tryTAR_of_tarMatch {g : Graph} {lid : Nat} {L : Layer} {o : TensorInfo}
    (hm : tarMatch g lid = some (L, o)) :
    tryTAR g lid = some { layers := g.layers.map (replaceFn lid g.nextId
        (.reshape o.shape) ("as_reshape-" ++ L.name) (some o)
        (L.related ++ [L.name])), nextId := g.nextId + 1 } := by
  obtain ⟨hf, ho, perm, u, inInfo, hk, hc, hin, hp⟩ := tarMatch_some_elim hm
  unfold tryTAR
  rw [hm]
  dsimp only
  unfold replaceLayer
  rw [hf]
  dsimp only
  have har : ((hasInputSlot (.reshape o.shape) == hasInputSlot L.kind) &&
      (hasOutputSlot (.reshape o.shape) == hasOutputSlot L.kind)) = true := by
    rw [hk]; rfl
  rw [if_pos har]

theorem tryTAR_none_iff {g : Graph} {lid : Nat} :
    tryTAR g lid = none ↔ tarMatch g lid = none := by
  constructor
  · intro h
    cases hm : tarMatch g lid with
    | none => rfl
    | some p =>
        obtain ⟨L, o⟩ := p
        rw [tryTAR_of_tarMatch hm] at h
        exact absurd h (by simp)
  · intro h
    unfold tryTAR
    rw [h]

theorem tryTAR_inv {g g2 : Graph} {lid : Nat} (h : Inv g)
    (heq : tryTAR g lid = some g2) : Inv g2 := by
  obtain ⟨L, o, hm, hr⟩ := tryTAR_some_elim heq
  exact inv_replaceLayer h hr

theorem offerAll_some :
    ∀ {cat : List OptRule} {g : Graph} {lid : Nat} {g2 : Graph},
      offerAll cat g lid = some g2 → tryTAR g lid = some g2
  | [], _, _, _, h => absurd h (by simp [offerAll])
  | r :: rest, g, lid, g2, h => by
      unfold offerAll at h
      cases r
      have hrr : runRule OptRule.transposeAsReshape g lid = tryTAR g lid := rfl
      rw [hrr] at h
      cases htr : tryTAR g lid with
      | some g3 =>
          rw [htr] at h
          exact h
      | none =>
          rw [htr] at h
          have h2 := offerAll_some h
          rw [htr] at h2
          exact absurd h2 (by simp)

theorem offerAll_ne_nil :
    ∀ {cat : List OptRule}, cat ≠ [] → ∀ (g : Graph) (lid : Nat),
      offerAll cat g lid = tryTAR g lid
  | [], hc, _, _ => absurd rfl hc
  | r :: rest, _, g, lid => by
      unfold offerAll
      cases r
      have hrr : runRule OptRule.transposeAsReshape g lid = tryTAR g lid := rfl
      rw [hrr]
      cases htr : tryTAR g lid with
      | some g3 => rfl
      | none =>
          dsimp only
          by_cases hrest : rest = []
          · rw [hrest]
            rfl
          · rw [offerAll_ne_nil hrest g lid, htr]

theorem passAux_inv {cat : List OptRule} :
    ∀ {rest : List Nat} {g : Graph}, Inv g → Inv (passAux cat g rest)
  | [], _, h => h
  | lid :: rest, g, h => by
      unfold passAux
      cases hoff : offerAll cat g lid with
      | some g2 => exact passAux_inv (tryTAR_inv h (offerAll_some hoff))
      | none => exact passAux_inv h

theorem pass_inv {g : Graph} {cat : List OptRule} (h : Inv g) :
    Inv (Optimizer.Pass g cat) :=
  passAux_inv h

theorem passAux_noop {cat : List OptRule} :
    ∀ {rest : List Nat} {g : Graph},
      (∀ lid ∈ rest, tryTAR g lid = none) → passAux cat g rest = g
  | [], _, _ => rfl
  | lid :: rest, g, h => by
      unfold passAux
      cases hoff : offerAll cat g lid with
      | some g2 =>
          have := offerAll_some hoff
          rw [h lid (List.mem_cons_self lid rest)] at this
          exact absurd this (by simp)
      | none => exact passAux_noop (fun v hv => h v (List.mem_cons_of_mem lid hv))

theorem passAux_nil_cat : ∀ (rest : List Nat) (g : Graph),
    passAux [] g rest = g
  | [], _ => rfl
  | lid :: rest, g => passAux_nil_cat rest g

theorem replaceFn_kind_old {oldId nid : Nat} {k : LayerKind} {name : String}
    {info : Option TensorInfo} {rel : List String} {L : Layer}
    (h : L.id = oldId) :
    (replaceFn oldId nid k name info rel L).kind = k := by
  unfold replaceFn; simp [h]

theorem replaceFn_outInfo_old {oldId nid : Nat} {k : LayerKind} {name : String}
    {info : Option TensorInfo} {rel : List String} {L : Layer}
    (h : L.id = oldId) :
    (replaceFn oldId nid k name info rel L).outInfo = info := by
  unfold replaceFn; simp [h]

theorem replaceFn_related_old {oldId nid : Nat} {k : LayerKind} {name : String}
    {info : Option TensorInfo} {rel : List String} {L : Layer}
    (h : L.id = oldId) :
    (replaceFn oldId nid k name info rel L).related = rel := by
  unfold replaceFn; simp [h]

/-- After a Transpose-as-Reshape rewrite, the freshly created Reshape layer
itself never matches the rule again (a Reshape is not a Transpose). -/
theorem tarMatch_map_new_none {g : Graph} {lid : Nat} {T : Layer}
    {s : List Nat} {nm : String} {info : Option TensorInfo} {rel : List String}
    (hb : idsBound g) (hfT : findLayer g lid = some T) :
    tarMatch { layers := g.layers.map
                           (replaceFn lid g.nextId (.reshape s) nm info rel),
               nextId := g.nextId + 1 } g.nextId = none := by
  have hTid : T.id = lid := (findLayer_mem hfT).2
  unfold tarMatch
  rw [findLayer_mk, find?_map_replace_new hb]
  rw [show g.layers.find? (fun L => L.id == lid) = some T from hfT]
  rw [Option.map_some', Option.some_bind, replaceFn_kind_old hTid]
  rfl

/-- Stability of non-matching under a Transpose-as-Reshape rewrite rooted at
another layer: a layer that did not match before the rewrite still does not
match afterwards (the rewired upstream carries the same resolved
TensorInfo). -/
theorem tarMatch_map_none {g : Graph} {lid : Nat} {T : Layer} {o : TensorInfo}
    (hb : idsBound g) (hn : idsNodup g) (ht : topoOrdered g)
    (hfT : findLayer g lid = some T) (hoT : T.outInfo = some o)
    {s : List Nat} {nm : String} {rel : List String} {m : Nat} (hne : m ≠ lid)
    (hnone : tarMatch g m = none) :
    tarMatch { layers := g.layers.map
                           (replaceFn lid g.nextId (.reshape s) nm (some o) rel),
               nextId := g.nextId + 1 } m = none := by
  have hTmem := findLayer_mem hfT
  have hTid : T.id = lid := hTmem.2
  by_cases hmn : m = g.nextId
  · subst hmn
    exact tarMatch_map_new_none hb hfT
  · unfold tarMatch
    rw [findLayer_mk, find?_map_replace_ne hne hmn]
    cases hfm : findLayer g m with
    | none =>
        rw [show g.layers.find? (fun L => L.id == m) = none from hfm]
        rfl
    | some M =>
        rw [show g.layers.find? (fun L => L.id == m) = some M from hfm]
        rw [Option.map_some', Option.some_bind]
        have hMmem := findLayer_mem hfm
        have hMne : M.id ≠ lid := by rw [hMmem.2]; exact hne
        unfold tarMatch at hnone
        rw [hfm, Option.some_bind] at hnone
        rw [replaceFn_kind_ne hMne]
        cases hkM : kindPerm M.kind with
        | none => rfl
        | some perm =>
            rw [hkM, Option.some_bind] at hnone
            rw [Option.some_bind]
            rw [replaceFn_inputConn]
            cases hconn : M.inputConn with
            | none => rfl
            | some u =>
                rw [hconn, Option.some_bind] at hnone
                rw [Option.map_some', Option.some_bind]
                have humem : u ∈ g.layers.map Layer.id := by
                  rcases topoFrom_upstream_mem ht hMmem.1 hconn with h | h
                  · exact absurd h (List.not_mem_nil u)
                  · exact h
                obtain ⟨U, hU⟩ := findLayer_isSome_of_mem humem
                have hUmem := findLayer_mem hU
                have hult : u < g.nextId := by
                  rw [← hUmem.2]; exact hb U hUmem.1
                by_cases hul : u = lid
                · have hru : renameId lid g.nextId u = g.nextId := by
                    unfold renameId; rw [if_pos hul]
                  rw [hru, findLayer_mk, find?_map_replace_new hb]
                  rw [show g.layers.find? (fun L => L.id == lid) = some T
                    from hfT]
                  rw [Option.map_some', Option.some_bind,
                    replaceFn_outInfo_old hTid]
                  rw [hul] at hnone
                  rw [show findLayer g lid = some T from hfT,
                    Option.some_bind, hoT, Option.some_bind] at hnone
                  rw [Option.some_bind, replaceFn_outInfo_ne hMne]
                  cases hout : M.outInfo with
                  | none => rfl
                  | some mo =>
                      rw [hout, Option.some_bind] at hnone
                      rw [Option.some_bind]
                      by_cases hp : transposeIsReshape o.shape perm = true
                      · rw [if_pos hp] at hnone
                        exact absurd hnone (by simp)
                      · rw [if_neg hp]
                · have hru : renameId lid g.nextId u = u := by
                    unfold renameId; rw [if_neg hul]
                  rw [hru, findLayer_mk,
                    find?_map_replace_ne hul (Nat.ne_of_lt hult)]
                  rw [show g.layers.find? (fun L => L.id == u) = some U
                    from hU]
                  rw [Option.map_some', Option.some_bind]
                  have hUne : U.id ≠ lid := by rw [hUmem.2]; exact hul
                  rw [replaceFn_outInfo_ne hUne]
                  rw [show findLayer g u = some U from hU,
                    Option.some_bind] at hnone
                  cases hUout : U.outInfo with
                  | none => rfl
                  | some inInfo =>
                      rw [hUout, Option.some_bind] at hnone
                      rw [Option.some_bind, replaceFn_outInfo_ne hMne]
                      cases hout : M.outInfo with
                      | none => rfl
                      | some mo =>
                          rw [hout, Option.some_bind] at hnone
                          rw [Option.some_bind]
                          by_cases hp :
                              transposeIsReshape inInfo.shape perm = true
                          · rw [if_pos hp] at hnone
                            exact absurd hnone (by simp)
                          · rw [if_neg hp]

/-- After one pass every remaining layer fails the Transpose-as-Reshape
pattern match, provided every layer of the starting graph is still to be
visited or already fails it. -/
theorem passAux_clear {cat : List OptRule} (hcat : cat ≠ []) :
    ∀ {rest : List Nat} {g : Graph}, Inv g →
      (∀ L ∈ g.layers, L.id ∈ rest ∨ tarMatch g L.id = none) →
      ∀ L2 ∈ (passAux cat g rest).layers,
        tarMatch (passAux cat g rest) L2.id = none
  | [], g, _, hcov => by
      intro L2 hL2
      rcases hcov L2 hL2 with h | h
      · exact absurd h (List.not_mem_nil _)
      · exact h
  | lid :: rest, g, hInv, hcov => by
      unfold passAux
      cases hoff : offerAll cat g lid with
      | none =>
          refine passAux_clear hcat hInv ?_
          intro L hL
          rcases hcov L hL with h | h
          · rcases List.mem_cons.mp h with h2 | h2
            · refine Or.inr ?_
              rw [h2]
              refine tryTAR_none_iff.mp ?_
              rw [← offerAll_ne_nil hcat g lid]
              exact hoff
            · exact Or.inl h2
          · exact Or.inr h
      | some g2 =>
          have htry := offerAll_some hoff
          have hInv2 := tryTAR_inv hInv htry
          obtain ⟨T, o, hm, hr⟩ := tryTAR_some_elim htry
          obtain ⟨hfT, hoT, perm, u, inInfo, hkT, hcT, hinT, hpT⟩ :=
            tarMatch_some_elim hm
          have hg2 : g2 = { layers := g.layers.map (replaceFn lid g.nextId
              (.reshape o.shape) ("as_reshape-" ++ T.name) (some o)
              (T.related ++ [T.name])), nextId := g.nextId + 1 } := by
            have h2 := tryTAR_of_tarMatch hm
            rw [htry] at h2
            exact Option.some.inj h2
          refine passAux_clear hcat hInv2 ?_
          intro L hL
          obtain ⟨hb, hn, ht, hsw⟩ := hInv
          have hL2 : L ∈ (g.layers.map (replaceFn lid g.nextId
              (.reshape o.shape) ("as_reshape-" ++ T.name) (some o)
              (T.related ++ [T.name]))) := by
            rw [hg2] at hL
            exact hL
          rcases List.mem_map.mp hL2 with ⟨y, hy, hxy⟩
          by_cases hyl : y.id = lid
          · refine Or.inr ?_
            have hLid : L.id = g.nextId := by
              rw [← hxy, replaceFn_id]
              unfold renameId
              rw [if_pos hyl]
            rw [hLid, hg2]
            exact tarMatch_map_new_none hb hfT
          · have hLid : L.id = y.id := by
              rw [← hxy, replaceFn_id]
              unfold renameId
              rw [if_neg hyl]
            rcases hcov y hy with h | h
            · rcases List.mem_cons.mp h with h2 | h2
              · exact absurd h2 hyl
              · refine Or.inl ?_
                rw [hLid]
                exact h2
            · refine Or.inr ?_
              rw [hLid, hg2]
              exact tarMatch_map_none hb hn ht hfT hoT hyl h

/-- A layer that fails the pattern match survives the whole pass with its
kind and debug name unchanged. -/
theorem passAux_preserve {cat : List OptRule} :
    ∀ {rest : List Nat} {g : Graph} {lid : Nat} {L : Layer}, Inv g →
      findLayer g lid = some L → tarMatch g lid = none →
      ∃ L2, findLayer (passAux cat g rest) lid = some L2 ∧
        L2.kind = L.kind ∧ L2.name = L.name
  | [], _, _, L, _, hf, _ => ⟨L, hf, rfl, rfl⟩
  | v :: rest, g, lid, L, hInv, hf, hnm => by
      unfold passAux
      cases hoff : offerAll cat g v with
      | none => exact passAux_preserve hInv hf hnm
      | some g2 =>
          have htry := offerAll_some hoff
          have hInv2 := tryTAR_inv hInv htry
          obtain ⟨T, o, hm, hr⟩ := tryTAR_some_elim htry
          obtain ⟨hfT, hoT, perm, u, inInfo, hkT, hcT, hinT, hpT⟩ :=
            tarMatch_some_elim hm
          have hg2 : g2 = { layers := g.layers.map (replaceFn v g.nextId
              (.reshape o.shape) ("as_reshape-" ++ T.name) (some o)
              (T.related ++ [T.name])), nextId := g.nextId + 1 } := by
            have h2 := tryTAR_of_tarMatch hm
            rw [htry] at h2
            exact Option.some.inj h2
          obtain ⟨hb, hn, ht, hsw⟩ := hInv
          have hvne : lid ≠ v := by
            intro hc
            rw [hc, hm] at hnm
            exact absurd hnm (by simp)
          have hlt : lid < g.nextId := by
            have hmem := findLayer_mem hf
            rw [← hmem.2]
            exact hb L hmem.1
          have hLne : L.id ≠ v := by
            rw [(findLayer_mem hf).2]
            exact hvne
          have hf2 : findLayer g2 lid = some (replaceFn v g.nextId
              (.reshape o.shape) ("as_reshape-" ++ T.name) (some o)
              (T.related ++ [T.name]) L) := by
            rw [hg2, findLayer_mk, find?_map_replace_ne hvne (Nat.ne_of_lt hlt)]
            rw [show g.layers.find? (fun M => M.id == lid) = some L from hf]
            rfl
          have hnm2 : tarMatch g2 lid = none := by
            rw [hg2]
            exact tarMatch_map_none hb hn ht hfT hoT hvne hnm
          obtain ⟨L2, h1, h2, h3⟩ := passAux_preserve hInv2 hf2 hnm2
          refine ⟨L2, h1, ?_, ?_⟩
          · rw [h2, replaceFn_kind_ne hLne]
          · rw [h3, replaceFn_name_ne hLne]

/-- Modelled from the spec: idempotence of the Optimizer pass — running the
pass a second time with the same catalog on an already-optimized graph is a
no-op. -/
theorem pass_idempotent {g : Graph} {cat : List OptRule} (hInv : Inv g) :
    Optimizer.Pass (Optimizer.Pass g cat) cat = Optimizer.Pass g cat := by
  by_cases hcat : cat = []
  · subst hcat
    rw [show Optimizer.Pass g [] = g from passAux_nil_cat _ g]
    exact passAux_nil_cat _ g
  · have hclear := @passAux_clear cat hcat (g.layers.map Layer.id) g hInv
      (fun L hL => Or.inl (List.mem_map_of_mem Layer.id hL))
    apply passAux_noop
    intro lid hlid
    rcases List.mem_map.mp hlid with ⟨L, hLmem, hLid⟩
    rw [tryTAR_none_iff, ← hLid]
    exact hclear L hLmem

theorem tarMatch_intro {g : Graph} {lid u : Nat} {T : Layer}
    {perm : List Nat} {inInfo o : TensorInfo}
    (hf : findLayer g lid = some T) (hk : T.kind = .transpose perm)
    (hc : T.inputConn = some u)
    (hin : (findLayer g u).bind Layer.outInfo = some inInfo)
    (ho : T.outInfo = some o)
    (hp : transposeIsReshape inInfo.shape perm = true) :
    tarMatch g lid = some (T, o) := by
  unfold tarMatch
  rw [hf, Option.some_bind, hk]
  rw [show kindPerm (.transpose perm) = some perm from rfl, Option.some_bind]
  rw [hc, Option.some_bind, hin, Option.some_bind, ho, Option.some_bind]
  rw [if_pos hp]

theorem tarMatch_none_of_pred_false {g : Graph} {lid u : Nat} {T : Layer}
    {perm : List Nat} {inInfo : TensorInfo}
    (hf : findLayer g lid = some T) (hk : T.kind = .transpose perm)
    (hc : T.inputConn = some u)
    (hin : (findLayer g u).bind Layer.outInfo = some inInfo)
    (hp : transposeIsReshape inInfo.shape perm = false) :
    tarMatch g lid = none := by
  unfold tarMatch
  rw [hf, Option.some_bind, hk]
  rw [show kindPerm (.transpose perm) = some perm from rfl, Option.some_bind]
  rw [hc, Option.some_bind, hin, Option.some_bind]
  cases ho : T.outInfo with
  | none => rfl
  | some o =>
      rw [Option.some_bind]
      rw [if_neg (by rw [hp]; exact Bool.false_ne_true)]

/-! ### Reachable graph states and the mutator-call interface -/

/-- The reachable graph states: every graph obtainable from the empty graph
through the mutator API (AddLayer, InsertNewLayer, ReplaceLayer, EraseLayer,
SetTensorInfo) and Optimizer passes. -/
inductive Reachable : Graph → Prop where
  | empty : Reachable Graph.empty
  | add {g : Graph} (k : LayerKind) (name : String) :
      Reachable g → Reachable (addLayer g k name).1
  | insert {g g2 : Graph} {t nid : Nat} {k : LayerKind} {name : String} :
      Reachable g → insertNewLayer g t k name = some (g2, nid) → Reachable g2
  | replace {g g2 : Graph} {oldId : Nat} {k : LayerKind} {name : String}
      {info : Option TensorInfo} {rel : List String} :
      Reachable g → replaceLayer g oldId k name info rel = some g2 →
      Reachable g2
  | erase {g g2 : Graph} {lid : Nat} :
      Reachable g → eraseLayer g lid = some g2 → Reachable g2
  | setInfo {g g2 : Graph} {lid : Nat} {info : TensorInfo} :
      Reachable g → setTensorInfo g lid info = some g2 → Reachable g2
  | pass {g : Graph} (cat : List OptRule) :
      Reachable g → Reachable (Optimizer.Pass g cat)

theorem inv_empty : Inv Graph.empty := by
  refine ⟨?_, ?_, trivial, ?_⟩
  · intro L hL
    exact absurd hL (List.not_mem_nil L)
  · exact List.nodup_nil
  · intro L hL
    exact absurd hL (List.not_mem_nil L)

/-- Every reachable graph satisfies the structural invariant. -/
theorem inv_of_reachable {g : Graph} (h : Reachable g) : Inv g := by
  induction h with
  | empty => exact inv_empty
  | add k name _ ih => exact inv_addLayer ih k name
  | insert _ heq ih => exact inv_insertNewLayer ih heq
  | replace _ heq ih => exact inv_replaceLayer ih heq
  | erase _ heq ih => exact inv_eraseLayer ih heq
  | setInfo _ heq ih => exact inv_setTensorInfo ih heq
  | pass cat _ ih => exact pass_inv ih

/-- The four graph mutator calls of the Graph API. -/
inductive MutatorCall where
  | add (k : LayerKind) (name : String)
  | insert (targetId : Nat) (k : LayerKind) (name : String)
  | replace (oldId : Nat) (k : LayerKind) (name : String)
      (info : Option TensorInfo) (rel : List String)
  | erase (lid : Nat)

/-- Apply one mutator call; `none` is the failure outcome.  The state is a
pure value, so a failed call leaves the caller's graph untouched by
construction — no partial mutation is observable. -/
def applyCall : MutatorCall → Graph → Option Graph
  | .add k name, g => some (addLayer g k name).1
  | .insert t k name, g => (insertNewLayer g t k name).map Prod.fst
  | .replace oldId k name info rel, g => replaceLayer g oldId k name info rel
  | .erase lid, g => eraseLayer g lid

/-! ### The concrete test graphs of TransposeAsReshapeTests.cpp -/

/-- The input TensorInfo of the test: shape (1,2,3,1), Float32. -/
def infoIn1231 : TensorInfo :=
  { shape := [1, 2, 3, 1], dataType := .Float32, quantScale := 1,
    quantOffset := 0 }

/-- The output TensorInfo of the test: shape (1,1,2,3), Float32. -/
def infoOut1123 : TensorInfo :=
  { shape := [1, 1, 2, 3], dataType := .Float32, quantScale := 1,
    quantOffset := 0 }

/-- The graph built by TransposeAsReshapeTest before optimization:
AddLayer(Output), InsertNewLayer(Input) ahead of its input slot with input
TensorInfo (1,2,3,1), then InsertNewLayer(Transpose (0,3,1,2)) at the same
slot with output TensorInfo (1,1,2,3). -/
def tarTestGraph : Option Graph :=
  let p1 := addLayer Graph.empty .output ("output")
  (insertNewLayer p1.1 p1.2 .input ("input")).bind (fun p2 =>
    (setTensorInfo p2.1 p2.2 infoIn1231).bind (fun g3 =>
      (insertNewLayer g3 p1.2 (.transpose [0, 3, 1, 2]) ("transpose")).bind
        (fun p4 => setTensorInfo p4.1 p4.2 infoOut1123)))

/-- The Input layer of the test graph once its TensorInfo is resolved. -/
def tarInputLayerX : Layer :=
  { id := 1, name := "input", kind := .input, inputConn := none,
    outInfo := some infoIn1231, related := [] }

/-- The Transpose layer of the test graph once its TensorInfo is
resolved. -/
def tarTransposeLayerX : Layer :=
  { id := 2, name := "transpose", kind := .transpose [0, 3, 1, 2],
    inputConn := some 1, outInfo := some infoOut1123, related := [] }

/-- The Output layer of the test graph after both insertions. -/
def tarOutputLayerX : Layer :=
  { id := 0, name := "output", kind := .output, inputConn := some 2,
    outInfo := none, related := [] }

/-- The test graph, written out as the state the construction sequence
reaches: Input(1) → Transpose(2) → Output(0). -/
def tarTestGraphX : Graph :=
  { layers := [tarInputLayerX, tarTransposeLayerX, tarOutputLayerX],
    nextId := 3 }

/-- Intermediate states of the construction sequence of the test. -/
def tarG1 : Graph :=
  { layers := [ { id := 0, name := "output", kind := .output,
                  inputConn := none, outInfo := none, related := [] } ],
    nextId := 1 }

def tarG2 : Graph :=
  { layers :=
      [ { id := 1, name := "input", kind := .input, inputConn := none,
          outInfo := none, related := [] },
        { id := 0, name := "output", kind := .output, inputConn := some 1,
          outInfo := none, related := [] } ],
    nextId := 2 }

def tarG3 : Graph :=
  { layers :=
      [ tarInputLayerX,
        { id := 0, name := "output", kind := .output, inputConn := some 1,
          outInfo := none, related := [] } ],
    nextId := 2 }

def tarG4 : Graph :=
  { layers :=
      [ tarInputLayerX,
        { id := 2, name := "transpose", kind := .transpose [0, 3, 1, 2],
          inputConn := some 1, outInfo := none, related := [] },
        tarOutputLayerX ],
    nextId := 3 }

theorem tarTestGraph_eq : tarTestGraph = some tarTestGraphX := by decide

/-- The test graph after one Optimizer pass with the TransposeAsReshape
catalog. -/
def tarTestOptimized : Graph :=
  Optimizer.Pass tarTestGraphX [.transposeAsReshape]

/-- The input TensorInfo of the C3 boundary scenario: shape (1,3,5,1). -/
def infoBIn1351 : TensorInfo :=
  { shape := [1, 3, 5, 1], dataType := .Float32, quantScale := 1,
    quantOffset := 0 }

/-- The output TensorInfo of the C3 boundary scenario: shape (1,5,3,1). -/
def infoBOut1531 : TensorInfo :=
  { shape := [1, 5, 3, 1], dataType := .Float32, quantScale := 1,
    quantOffset := 0 }

/-- The Input layer of the C3 boundary graph. -/
def tarBInputLayerX : Layer :=
  { id := 1, name := "input", kind := .input, inputConn := none,
    outInfo := some infoBIn1351, related := [] }

/-- The Transpose layer of the C3 boundary graph: permutation (0,2,1,3)
swaps the two non-unit dimensions. -/
def tarBTransposeLayerX : Layer :=
  { id := 2, name := "transpose", kind := .transpose [0, 2, 1, 3],
    inputConn := some 1, outInfo := some infoBOut1531, related := [] }

/-- The C3 boundary graph: Input(1, shape (1,3,5,1)) →
Transpose(2, permutation (0,2,1,3)) → Output(0). -/
def tarBoundaryGraphX : Graph :=
  { layers :=
      [ tarBInputLayerX, tarBTransposeLayerX,
        { id := 0, name := "output", kind := .output, inputConn := some 2,
          outInfo := none, related := [] } ],
    nextId := 3 }

/-! ### Bridging the match predicate with the relative-order phrasing -/

theorem getD_mem_of_lt :
    ∀ {l : List Nat} {n : Nat}, n < l.length → l.getD n 0 ∈ l
  | x :: xs, 0, _ => List.mem_cons_self x xs
  | _ :: xs, n + 1, h =>
      List.mem_cons_of_mem _ (getD_mem_of_lt (Nat.lt_of_succ_lt_succ h))

theorem getD_eq_get :
    ∀ {l : List Nat} {n : Nat} (h : n < l.length), l.getD n 0 = l.get ⟨n, h⟩
  | _ :: _, 0, _ => rfl
  | _ :: xs, n + 1, h => getD_eq_get (Nat.lt_of_succ_lt_succ h)

/-- If the filtered sublist is strictly increasing, any two filtered-in
positions appear in increasing value order. -/
theorem pairwise_filter_ordered {f : Nat → Bool} :
    ∀ {l : List Nat}, List.Pairwise (· < ·) (l.filter f) →
      ∀ j, j < l.length → ∀ i, i < j →
        f (l.getD i 0) = true → f (l.getD j 0) = true →
        l.getD i 0 < l.getD j 0
  | [], _, j, hj, _, _, _, _ => absurd hj (Nat.not_lt_zero j)
  | x :: xs, h, j, hj, i, hij, hfi, hfj => by
      cases j with
      | zero => exact absurd hij (Nat.not_lt_zero i)
      | succ j2 =>
          have hj2 : j2 < xs.length := Nat.lt_of_succ_lt_succ hj
          cases i with
          | zero =>
              have hfx : f x = true := hfi
              have hfil : (x :: xs).filter f = x :: xs.filter f := by
                simp [List.filter_cons, hfx]
              rw [hfil] at h
              have h2 := (List.pairwise_cons.mp h).1
              show x < xs.getD j2 0
              refine h2 (xs.getD j2 0) ?_
              rw [List.mem_filter]
              exact ⟨getD_mem_of_lt hj2, hfj⟩
          | succ i2 =>
              have hxs : List.Pairwise (· < ·) (xs.filter f) := by
                by_cases hfx : f x = true
                · have hfil : (x :: xs).filter f = x :: xs.filter f := by
                    simp [List.filter_cons, hfx]
                  rw [hfil] at h
                  exact (List.pairwise_cons.mp h).2
                · have hfil : (x :: xs).filter f = xs.filter f := by
                    simp [List.filter_cons, hfx]
                  rw [hfil] at h
                  exact h
              exact pairwise_filter_ordered hxs j2 hj2 i2
                (Nat.lt_of_succ_lt_succ hij) hfi hfj

/-- Conversely, if any two filtered-in positions appear in increasing value
order then the filtered sublist is strictly increasing. -/
theorem pairwise_filter_of_ordered {f : Nat → Bool} :
    ∀ {l : List Nat},
      (∀ j, j < l.length → ∀ i, i < j →
        f (l.getD i 0) = true → f (l.getD j 0) = true →
        l.getD i 0 < l.getD j 0) →
      List.Pairwise (· < ·) (l.filter f)
  | [], _ => List.Pairwise.nil
  | x :: xs, h => by
      have hxs : List.Pairwise (· < ·) (xs.filter f) :=
        pairwise_filter_of_ordered (fun j hj i hij hfi hfj =>
          h (j + 1) (Nat.succ_lt_succ hj) (i + 1) (Nat.succ_lt_succ hij)
            hfi hfj)
      by_cases hfx : f x = true
      · have hfil : (x :: xs).filter f = x :: xs.filter f := by
          simp [List.filter_cons, hfx]
        rw [hfil]
        refine List.pairwise_cons.mpr ⟨?_, hxs⟩
        intro y hy
        rw [List.mem_filter] at hy
        rcases List.mem_iff_get.mp hy.1 with ⟨⟨j, hj⟩, hget⟩
        have hgd : xs.getD j 0 = y := by
          rw [getD_eq_get hj]
          exact hget
        have hlt := h (j + 1) (Nat.succ_lt_succ hj) 0 (Nat.succ_pos j) hfx
          (by show f (xs.getD j 0) = true; rw [hgd]; exact hy.2)
        show x < y
        rw [← hgd]
        exact hlt
      · have hfil : (x :: xs).filter f = xs.filter f := by
          simp [List.filter_cons, hfx]
        rw [hfil]
        exact hxs

/-- The relative-order phrasing of the spec implies the match predicate. -/
theorem transposeIsReshape_eq_true {inShape perm : List Nat}
    (h : ∀ j, j < perm.length → ∀ i, i < j →
      1 < inShape.getD (perm.getD i 0) 0 →
      1 < inShape.getD (perm.getD j 0) 0 →
      perm.getD i 0 < perm.getD j 0) :
    transposeIsReshape inShape perm = true := by
  unfold transposeIsReshape
  rw [decide_eq_true_iff]
  refine pairwise_filter_of_ordered ?_
  intro j hj i hij hfi hfj
  exact h j hj i hij (of_decide_eq_true hfi) (of_decide_eq_true hfj)

/-- A single inverted pair of non-unit dimensions falsifies the match
predicate. -/
theorem transposeIsReshape_eq_false {inShape perm : List Nat} {i j : Nat}
    (hj : j < perm.length) (hij : i < j)
    (h1 : 1 < inShape.getD (perm.getD i 0) 0)
    (h2 : 1 < inShape.getD (perm.getD j 0) 0)
    (hlt : perm.getD j 0 < perm.getD i 0) :
    transposeIsReshape inShape perm = false := by
  cases hb : transposeIsReshape inShape perm with
  | false => rfl
  | true =>
      exfalso
      unfold transposeIsReshape at hb
      rw [decide_eq_true_iff] at hb
      have hord := pairwise_filter_ordered hb j hj i hij
        (decide_eq_true h1) (decide_eq_true h2)
      exact Nat.lt_asymm hord hlt

/-! ### The claims -/

/-- C1: for the graph Input → Transpose → Output built by the test (input
TensorInfo shape (1,2,3,1), output TensorInfo shape (1,1,2,3), permutation
(0,3,1,2)), one Optimizer pass with the TransposeAsReshape optimization
yields a layer sequence that is exactly Input → Reshape → Output, where the
Reshape layer's target-shape parameter and its output TensorInfo shape both
equal (1,1,2,3), and the related-layers table of the surviving Reshape layer
contains the original transpose layer's debug name "transpose".  The last
conjunct ties the explicitly written pre-pass graph to the construction
sequence the test performs. -/
theorem C1_transposeAsReshapeTest :
    tarTestOptimized.layers.map Layer.kind =
      [.input, .reshape [1, 1, 2, 3], .output] ∧
    tarTestOptimized.layers.map (fun L => L.outInfo.map TensorInfo.shape) =
      [some [1, 2, 3, 1], some [1, 1, 2, 3], none] ∧
    tarTestOptimized.layers.map Layer.related = [[], ["transpose"], []] ∧
    tarTestGraph = some tarTestGraphX := by
  refine ⟨?_, ?_, ?_, ?_⟩ <;> decide

/-- C2: every Transpose layer whose permutation vector does not change the
relative order of any pair of dimensions that are both of size greater than
one (it only moves size-1 dimensions) is replaced by the TransposeAsReshape
optimization: the rewrite fires, the original layer is gone afterwards, and
the replacement is a Reshape layer whose target shape equals the Transpose's
already-resolved output shape and whose related-layers side-table records
the original layer's debug name. -/
theorem C2_transposeOnlyUnitDimsRewritten {g : Graph} {lid u : Nat}
    {T U : Layer} {perm : List Nat} {inInfo outInfo : TensorInfo}
    (hInv : Inv g) (hf : findLayer g lid = some T)
    (hk : T.kind = .transpose perm) (hc : T.inputConn = some u)
    (hU : findLayer g u = some U) (hUo : U.outInfo = some inInfo)
    (ho : T.outInfo = some outInfo)
    (hmono : ∀ j, j < perm.length → ∀ i, i < j →
      1 < inInfo.shape.getD (perm.getD i 0) 0 →
      1 < inInfo.shape.getD (perm.getD j 0) 0 →
      perm.getD i 0 < perm.getD j 0) :
    ∃ g2, tryTAR g lid = some g2 ∧ findLayer g2 lid = none ∧
      ∃ R, findLayer g2 g.nextId = some R ∧
        R.kind = .reshape outInfo.shape ∧ T.name ∈ R.related := by
  obtain ⟨hb, hn, ht, hsw⟩ := hInv
  have hp : transposeIsReshape inInfo.shape perm = true :=
    transposeIsReshape_eq_true hmono
  have hm : tarMatch g lid = some (T, outInfo) :=
    tarMatch_intro hf hk hc (by rw [hU, Option.some_bind, hUo]) ho hp
  have hTid : T.id = lid := (findLayer_mem hf).2
  refine ⟨_, tryTAR_of_tarMatch hm, ?_, ?_⟩
  · rw [findLayer_mk]
    exact find?_map_replace_old_none hb
  · refine ⟨replaceFn lid g.nextId (.reshape outInfo.shape)
      ("as_reshape-" ++ T.name) (some outInfo) (T.related ++ [T.name]) T,
      ?_, ?_, ?_⟩
    · rw [findLayer_mk, find?_map_replace_new hb]
      rw [show g.layers.find? (fun L => L.id == lid) = some T from hf]
      rfl
    · rw [replaceFn_kind_old hTid]
    · rw [replaceFn_related_old hTid]
      exact List.mem_append.mpr (Or.inr (List.mem_singleton.mpr rfl))

/-- Witness for C2 at the concrete test graph: transpose layer 2, input
shape (1,2,3,1), permutation (0,3,1,2). -/
theorem C2_transposeOnlyUnitDimsRewritten_witness :
    ∃ g2, tryTAR tarTestGraphX 2 = some g2 ∧ findLayer g2 2 = none ∧
      ∃ R, findLayer g2 3 = some R ∧
        R.kind = .reshape infoOut1123.shape ∧ "transpose" ∈ R.related :=
  @C2_transposeOnlyUnitDimsRewritten tarTestGraphX 2 1 tarTransposeLayerX
    tarInputLayerX [0, 3, 1, 2] infoIn1231 infoOut1123 (by decide) rfl rfl
    rfl rfl rfl rfl (by decide)

/-- C3: a Transpose layer whose permutation vector reorders two dimensions
that are both of size greater than one is not matched by the
TransposeAsReshape optimization, and after the Optimizer pass (with any
catalog of the fragment's rules) the layer is still present as a Transpose
layer with its original permutation parameter unchanged. -/
theorem C3_nonMatchBoundary {g : Graph} {lid u : Nat} {T U : Layer}
    {perm : List Nat} {inInfo : TensorInfo} {i j : Nat}
    (cat : List OptRule) (hInv : Inv g) (hf : findLayer g lid = some T)
    (hk : T.kind = .transpose perm) (hc : T.inputConn = some u)
    (hU : findLayer g u = some U) (hUo : U.outInfo = some inInfo)
    (hj : j < perm.length) (hij : i < j)
    (h1 : 1 < inInfo.shape.getD (perm.getD i 0) 0)
    (h2 : 1 < inInfo.shape.getD (perm.getD j 0) 0)
    (hinv : perm.getD j 0 < perm.getD i 0) :
    tarMatch g lid = none ∧
    ∃ T2, findLayer (Optimizer.Pass g cat) lid = some T2 ∧
      T2.kind = .transpose perm := by
  have hp : transposeIsReshape inInfo.shape perm = false :=
    transposeIsReshape_eq_false hj hij h1 h2 hinv
  have hnm : tarMatch g lid = none :=
    tarMatch_none_of_pred_false hf hk hc
      (by rw [hU, Option.some_bind, hUo]) hp
  refine ⟨hnm, ?_⟩
  obtain ⟨T2, hT2, hkind, _⟩ := @passAux_preserve cat
    (g.layers.map Layer.id) g lid T hInv hf hnm
  exact ⟨T2, hT2, by rw [hkind, hk]⟩

/-- Witness for C3 at the boundary graph: shape (1,3,5,1), permutation
(0,2,1,3), inverted pair at output positions 1 < 2. -/
theorem C3_nonMatchBoundary_witness :
    tarMatch tarBoundaryGraphX 2 = none ∧
    ∃ T2, findLayer (Optimizer.Pass tarBoundaryGraphX [.transposeAsReshape])
        2 = some T2 ∧ T2.kind = .transpose [0, 2, 1, 3] :=
  @C3_nonMatchBoundary tarBoundaryGraphX 2 1 tarBTransposeLayerX
    tarBInputLayerX [0, 2, 1, 3] infoBIn1351 1 2 [.transposeAsReshape]
    (by decide) rfl rfl rfl rfl rfl (by decide) (by decide) (by decide)
    (by decide) (by decide)

/-- C4: the Optimizer pass is idempotent — for every structurally
well-formed graph and every catalog of the fragment's optimizations, running
the pass twice in succession produces exactly the graph produced by running
it once (the same layer sequence, connectivity and parameters, since graphs
are compared by full structural equality). -/
theorem C4_passIdempotent (g : Graph) (cat : List OptRule) (hInv : Inv g) :
    Optimizer.Pass (Optimizer.Pass g cat) cat = Optimizer.Pass g cat :=
  pass_idempotent hInv

/-- Witness for C4 at the concrete test graph. -/
theorem C4_passIdempotent_witness :
    Optimizer.Pass (Optimizer.Pass tarTestGraphX [.transposeAsReshape])
        [.transposeAsReshape] =
      Optimizer.Pass tarTestGraphX [.transposeAsReshape] :=
  C4_passIdempotent tarTestGraphX [.transposeAsReshape] (by decide)

/-- C5: topological order is an invariant of every reachable graph state —
for every graph reachable from the empty graph through the mutators
(AddLayer, InsertNewLayer, ReplaceLayer, EraseLayer, SetTensorInfo) and
Optimizer passes, every layer feeding some layer's input slot occurs
strictly before the consuming layer in the graph's iteration order. -/
theorem C5_topoOrderInvariant {g : Graph} (h : Reachable g) :
    ∀ (j : Nat) (hj : j < g.layers.length) (u : Nat),
      (g.layers.get ⟨j, hj⟩).inputConn = some u →
      ∃ i, ∃ hi : i < g.layers.length, i < j ∧
        (g.layers.get ⟨i, hi⟩).id = u := by
  intro j hj u hu
  have hInv := inv_of_reachable h
  rcases topoFrom_get hInv.2.2.1 j hj u hu with hs | hs
  · exact absurd hs (List.not_mem_nil u)
  · exact hs

/-- Witness for C5: the concrete test graph is reachable through the
construction sequence of the test, and the topological-order property holds
for it. -/
theorem C5_topoOrderInvariant_witness :
    Reachable tarTestGraphX ∧
    (∀ (j : Nat) (hj : j < tarTestGraphX.layers.length) (u : Nat),
      (tarTestGraphX.layers.get ⟨j, hj⟩).inputConn = some u →
      ∃ i, ∃ hi : i < tarTestGraphX.layers.length, i < j ∧
        (tarTestGraphX.layers.get ⟨i, hi⟩).id = u) := by
  have hr : Reachable tarTestGraphX := by
    have r1 : Reachable tarG1 :=
      Reachable.add .output ("output") Reachable.empty
    have r2 : Reachable tarG2 :=
      @Reachable.insert tarG1 tarG2 0 1 .input ("input") r1 (by decide)
    have r3 : Reachable tarG3 :=
      @Reachable.setInfo tarG2 tarG3 1 infoIn1231 r2 (by decide)
    have r4 : Reachable tarG4 :=
      @Reachable.insert tarG3 tarG4 0 2 (.transpose [0, 3, 1, 2])
        ("transpose") r3 (by decide)
    exact @Reachable.setInfo tarG4 tarTestGraphX 2 infoOut1123 r4 (by decide)
  exact ⟨hr, C5_topoOrderInvariant hr⟩

/-- C6: every graph mutator is atomic with respect to structural errors —
for every well-formed graph state and every mutator call, either the call
succeeds and the structural invariant (topological order, identifier
discipline and slot well-formedness; single-upstream-per-input is
structural, an input slot holding one optional upstream reference) holds on
the result, or the call fails returning `none`, in which case the purely
functional graph value passed by the caller is untouched — no partial
mutation exists. -/
theorem C6_mutatorAtomic (g : Graph) (c : MutatorCall) (hInv : Inv g) :
    (∃ g2, applyCall c g = some g2 ∧ Inv g2) ∨ applyCall c g = none := by
  cases c with
  | add k name => exact Or.inl ⟨_, rfl, inv_addLayer hInv k name⟩
  | insert t k name =>
      cases heq : insertNewLayer g t k name with
      | none =>
          refine Or.inr ?_
          show (insertNewLayer g t k name).map Prod.fst = none
          rw [heq]
          rfl
      | some p =>
          obtain ⟨g2, nid⟩ := p
          refine Or.inl ⟨g2, ?_, inv_insertNewLayer hInv heq⟩
          show (insertNewLayer g t k name).map Prod.fst = some g2
          rw [heq]
          rfl
  | replace oldId k name info rel =>
      cases heq : replaceLayer g oldId k name info rel with
      | none => exact Or.inr heq
      | some g2 => exact Or.inl ⟨g2, heq, inv_replaceLayer hInv heq⟩
  | erase lid =>
      cases heq : eraseLayer g lid with
      | none => exact Or.inr heq
      | some g2 => exact Or.inl ⟨g2, heq, inv_eraseLayer hInv heq⟩

/-- Witness for C6: an EraseLayer call on the test graph (which fails, since
the transpose layer still has live edges) and therefore exercises the
failure side of the disjunction through the theorem. -/
theorem C6_mutatorAtomic_witness :
    (∃ g2, applyCall (.erase 2) tarTestGraphX = some g2 ∧ Inv g2) ∨
      applyCall (.erase 2) tarTestGraphX = none :=
  C6_mutatorAtomic tarTestGraphX (.erase 2) (by decide)

/-! ### The reference Permute workload -/

/-- Decompose a row-major linear index into per-dimension coordinates using
the given shape. -/
def coordsOf : List Nat → Nat → List Nat
  | [], _ => []
  | _ :: ds, i => (i / ds.prod) :: coordsOf ds (i % ds.prod)

/-- Row-major linear index of the given coordinates in the given shape. -/
def linearIndex : List Nat → List Nat → Nat
  | [], _ => 0
  | _ :: _, [] => 0
  | _ :: ds, c :: cs => c * ds.prod + linearIndex ds cs

/-- The coordinates are in range for the shape (same rank, each coordinate
below its dimension size). -/
def validCoords : List Nat → List Nat → Prop
  | [], [] => True
  | d :: ds, c :: cs => c < d ∧ validCoords ds cs
  | _, _ => False

instance decValidCoords :
    (shape coords : List Nat) → Decidable (validCoords shape coords)
  | [], [] => .isTrue trivial
  | _ :: ds, c :: cs =>
      @instDecidableAnd _ _ (Nat.decLt c _) (decValidCoords ds cs)
  | [], _ :: _ => .isFalse (fun h => h)
  | _ :: _, [] => .isFalse (fun h => h)

/-- Modelled from the spec: the output shape of Permute — the permutation
maps input dimension i to output dimension mappings[i], so output dimension
j has the size of the input dimension at the position where the permutation
vector holds j. -/
def permOutShape (inShape perm : List Nat) : List Nat :=
  (List.range perm.length).map (fun j => inShape.getD (perm.indexOf j) 0)

/-- Modelled from the spec: the input coordinates corresponding to given
output coordinates — apply the inverse permutation, i.e. input coordinate i
is the output coordinate at position perm[i]. -/
def inCoords (perm outC : List Nat) : List Nat :=
  perm.map (fun p => outC.getD p 0)

/-- Modelled from the spec: the data movement of RefPermuteWorkload's
Execute() — for every linear index i of the output tensor, decompose i into
per-dimension coordinates via the output shape, apply the inverse
permutation to obtain the input coordinates, and copy that input element; a
pure elementwise reindexing with no value transformation (the element type
is the type parameter). -/
def permuteData (α : Type) (dflt : α) (inShape perm : List Nat)
    (data : List α) : List α :=
  (List.range (permOutShape inShape perm).prod).map (fun i =>
    data.getD
      (linearIndex inShape (inCoords perm (coordsOf (permOutShape inShape perm) i)))
      dflt)

/-- The carrier type modelling the elements of each data type: the workload
copies elements without arithmetic, so the floating types are modelled by
exact rationals and the quantized types by integers. -/
@[reducible] def ResolveType : DataType → Type
  | .BFloat16 => Rat
  | .Float16 => Rat
  | .Float32 => Rat
  | .QAsymmS8 => Int
  | .QAsymmU8 => Int
  | .QSymmS16 => Int

/-- A default element of each carrier, standing for uninitialized storage. -/
def defaultElem : (dt : DataType) → ResolveType dt
  | .BFloat16 => (0 : Rat)
  | .Float16 => (0 : Rat)
  | .Float32 => (0 : Rat)
  | .QAsymmS8 => (0 : Int)
  | .QAsymmU8 => (0 : Int)
  | .QSymmS16 => (0 : Int)

/-- A tensor bound to concrete storage: its TensorInfo plus its elements in
row-major order. -/
structure TensorData (α : Type) where
  info : TensorInfo
  data : List α

/-- Modelled from the spec: the Permute QueueDescriptor — the layer's
permutation parameter plus the bound input and output tensors. -/
structure PermuteQueueDescriptor (α : Type) where
  mappings : List Nat
  inputs : List (TensorData α)
  outputs : List (TensorData α)

/-- Modelled from the spec: descriptor validation performed at workload
creation — a Permute workload requires exactly one input slot, exactly one
output slot, and a permutation vector whose length equals the input tensor
rank. -/
def validatePermute {α : Type} (d : PermuteQueueDescriptor α) : Bool :=
  match d.inputs, d.outputs with
  | [inp], [_] => d.mappings.length == inp.info.shape.length
  | _, _ => false

/-- The typed reference Permute workload, specialized per element data type
as in RefPermuteWorkload.hpp; it owns its validated QueueDescriptor
(m_Data). -/
structure RefPermuteWorkload (dt : DataType) where
  m_Data : PermuteQueueDescriptor (ResolveType dt)

/-- Modelled from the spec: CreateWorkload validates the QueueDescriptor
against the operation's parameter and arity requirements before a Workload
is returned; a malformed descriptor is rejected at creation time, so no
workload value exists for it and `Execute` (a function on workload values
only) can never run on that descriptor. -/
def createRefPermuteWorkload (dt : DataType)
    (d : PermuteQueueDescriptor (ResolveType dt)) :
    Option (RefPermuteWorkload dt) :=
  if validatePermute d then some { m_Data := d } else none

/-- Modelled from the spec: Execute() of the typed reference Permute
workload — produces the output tensor: permuted shape, quantization scale
and zero-point passed through unchanged from the input, and data obtained by
pure reindexing. -/
def RefPermuteWorkload.Execute {dt : DataType} (w : RefPermuteWorkload dt) :
    TensorData (ResolveType dt) :=
  match w.m_Data.inputs with
  | [inp] =>
      { info := { shape := permOutShape inp.info.shape w.m_Data.mappings,
                  dataType := inp.info.dataType,
                  quantScale := inp.info.quantScale,
                  quantOffset := inp.info.quantOffset },
        data := permuteData (ResolveType dt) (defaultElem dt) inp.info.shape
          w.m_Data.mappings inp.data }
  | _ =>
      { info := { shape := [], dataType := .Float32, quantScale := 0,
                  quantOffset := 0 },
        data := [] }

/-! ### Index arithmetic for the permute correctness proof -/

theorem linearIndex_lt :
    ∀ {shape coords : List Nat}, validCoords shape coords →
      linearIndex shape coords < shape.prod
  | [], [], _ => by simp [linearIndex]
  | d :: ds, c :: cs, ⟨hc, hrest⟩ => by
      show c * ds.prod + linearIndex ds cs < (d :: ds).prod
      rw [List.prod_cons]
      have ih := linearIndex_lt hrest
      calc c * ds.prod + linearIndex ds cs
          < c * ds.prod + ds.prod := Nat.add_lt_add_left ih _
        _ = (c + 1) * ds.prod := by rw [Nat.succ_mul]
        _ ≤ d * ds.prod := Nat.mul_le_mul_right _ (Nat.succ_le_of_lt hc)

theorem coordsOf_linearIndex :
    ∀ {shape coords : List Nat}, validCoords shape coords →
      coordsOf shape (linearIndex shape coords) = coords
  | [], [], _ => rfl
  | d :: ds, c :: cs, ⟨hc, hrest⟩ => by
      have ih := coordsOf_linearIndex hrest
      have hlt := linearIndex_lt hrest
      have hpos : 0 < ds.prod := Nat.lt_of_le_of_lt (Nat.zero_le _) hlt
      show (c * ds.prod + linearIndex ds cs) / ds.prod ::
          coordsOf ds ((c * ds.prod + linearIndex ds cs) % ds.prod) = c :: cs
      have hdiv : (c * ds.prod + linearIndex ds cs) / ds.prod = c := by
        rw [Nat.add_comm, Nat.mul_comm, Nat.add_mul_div_left _ _ hpos,
          Nat.div_eq_of_lt hlt, Nat.zero_add]
      have hmod : (c * ds.prod + linearIndex ds cs) % ds.prod =
          linearIndex ds cs := by
        rw [Nat.add_comm, Nat.mul_comm, Nat.add_mul_mod_self_left,
          Nat.mod_eq_of_lt hlt]
      rw [hdiv, hmod, ih]

theorem getD_map_range {α : Type} {f : Nat → α} {n i : Nat} (h : i < n)
    (d : α) : ((List.range n).map f).getD i d = f i := by
  rw [List.getD_eq_getElem?_getD, List.getElem?_map, List.getElem?_range h]
  rfl

/-- C7: for every supported element data type and every valid Permute
QueueDescriptor, Execute() writes, at every valid output coordinate tuple,
the input element located at the coordinates obtained by applying the
inverse permutation (equivalently: for every linear output index, decompose
via the output shape and reindex) — a pure elementwise reindexing with no
value transformation, so the output's shape is the permuted shape and its
data type, quantization scale and zero-point equal the input's. -/
theorem C7_refPermuteExecuteCorrect (dt : DataType)
    {d : PermuteQueueDescriptor (ResolveType dt)} {w : RefPermuteWorkload dt}
    {inp : TensorData (ResolveType dt)}
    (hw : createRefPermuteWorkload dt d = some w) (hin : d.inputs = [inp])
    (outC : List Nat)
    (hv : validCoords (permOutShape inp.info.shape d.mappings) outC) :
    w.Execute.info.shape = permOutShape inp.info.shape d.mappings ∧
    w.Execute.info.quantScale = inp.info.quantScale ∧
    w.Execute.info.quantOffset = inp.info.quantOffset ∧
    w.Execute.info.dataType = inp.info.dataType ∧
    w.Execute.data.getD
        (linearIndex (permOutShape inp.info.shape d.mappings) outC)
        (defaultElem dt) =
      inp.data.getD (linearIndex inp.info.shape (inCoords d.mappings outC))
        (defaultElem dt) := by
  have hwd : w = { m_Data := d } := by
    unfold createRefPermuteWorkload at hw
    by_cases hval : validatePermute d = true
    · rw [if_pos hval] at hw
      exact (Option.some.inj hw).symm
    · rw [if_neg hval] at hw
      exact absurd hw (by simp)
  subst hwd
  have hE : RefPermuteWorkload.Execute
      ({ m_Data := d } : RefPermuteWorkload dt) =
      { info := { shape := permOutShape inp.info.shape d.mappings,
                  dataType := inp.info.dataType,
                  quantScale := inp.info.quantScale,
                  quantOffset := inp.info.quantOffset },
        data := permuteData (ResolveType dt) (defaultElem dt) inp.info.shape
          d.mappings inp.data } := by
    unfold RefPermuteWorkload.Execute
    dsimp only
    rw [hin]
  rw [hE]
  refine ⟨rfl, rfl, rfl, rfl, ?_⟩
  unfold permuteData
  rw [getD_map_range (linearIndex_lt hv), coordsOf_linearIndex hv]

/-- The example's input tensor at the modelled Float32 type: shape (2,3),
data ((1,2,3),(4,5,6)). -/
def permuteTestInF32 : TensorData (ResolveType .Float32) :=
  { info := { shape := [2, 3], dataType := .Float32, quantScale := 1,
              quantOffset := 0 },
    data := [1, 2, 3, 4, 5, 6] }

/-- The claim's example descriptor at the modelled Float32 type with
permutation (1,0). -/
def permuteTestDescF32 : PermuteQueueDescriptor (ResolveType .Float32) :=
  { mappings := [1, 0],
    inputs := [permuteTestInF32],
    outputs := [ { info := { shape := [3, 2], dataType := .Float32,
                             quantScale := 1, quantOffset := 0 },
                   data := [0, 0, 0, 0, 0, 0] } ] }

/-- The example's input tensor at the modelled quantized (QAsymmU8) type,
with a non-trivial scale and zero-point. -/
def permuteTestInQ8 : TensorData (ResolveType .QAsymmU8) :=
  { info := { shape := [2, 3], dataType := .QAsymmU8, quantScale := 2,
              quantOffset := 3 },
    data := [1, 2, 3, 4, 5, 6] }

/-- The claim's example descriptor at the quantized type. -/
def permuteTestDescQ8 : PermuteQueueDescriptor (ResolveType .QAsymmU8) :=
  { mappings := [1, 0],
    inputs := [permuteTestInQ8],
    outputs := [ { info := { shape := [3, 2], dataType := .QAsymmU8,
                             quantScale := 2, quantOffset := 3 },
                   data := [0, 0, 0, 0, 0, 0] } ] }

/-- Execute's output on the example at the Float32 carrier. -/
def permuteOutF32 : TensorData (ResolveType .Float32) :=
  RefPermuteWorkload.Execute { m_Data := permuteTestDescF32 }

/-- Execute's output on the example at the QAsymmU8 carrier. -/
def permuteOutQ8 : TensorData (ResolveType .QAsymmU8) :=
  RefPermuteWorkload.Execute { m_Data := permuteTestDescQ8 }

/-- Witness for C7: the example yields output shape (3,2) with data
((1,4),(2,5),(3,6)) at one floating and one quantized type with scale and
zero-point passed through, and the coordinate-level theorem applies at both
types. -/
theorem C7_refPermuteExecuteCorrect_witness :
    (permuteOutF32.info.shape = [3, 2] ∧
     permuteOutF32.data = [1, 4, 2, 5, 3, 6] ∧
     permuteOutF32.info.quantScale = 1 ∧
     permuteOutF32.info.quantOffset = 0) ∧
    (permuteOutQ8.info.shape = [3, 2] ∧
     permuteOutQ8.data = [1, 4, 2, 5, 3, 6] ∧
     permuteOutQ8.info.quantScale = 2 ∧
     permuteOutQ8.info.quantOffset = 3) ∧
    (validCoords (permOutShape [2, 3] [1, 0]) [1, 0] ∧
     permuteOutF32.data.getD (linearIndex (permOutShape [2, 3] [1, 0]) [1, 0])
         (defaultElem .Float32) =
       ([1, 2, 3, 4, 5, 6] : List Rat).getD
         (linearIndex [2, 3] (inCoords [1, 0] [1, 0]))
         (defaultElem .Float32)) ∧
    (validCoords (permOutShape [2, 3] [1, 0]) [2, 1] ∧
     permuteOutQ8.data.getD (linearIndex (permOutShape [2, 3] [1, 0]) [2, 1])
         (defaultElem .QAsymmU8) =
       ([1, 2, 3, 4, 5, 6] : List Int).getD
         (linearIndex [2, 3] (inCoords [1, 0] [2, 1]))
         (defaultElem .QAsymmU8)) := by
  refine ⟨by refine ⟨?_, ?_, ?_, ?_⟩ <;> decide,
          by refine ⟨?_, ?_, ?_, ?_⟩ <;> decide, ⟨by decide, ?_⟩,
          ⟨by decide, ?_⟩⟩
  · exact (@C7_refPermuteExecuteCorrect .Float32 permuteTestDescF32
      { m_Data := permuteTestDescF32 } permuteTestInF32 rfl rfl [1, 0]
      (by decide)).2.2.2.2
  · exact (@C7_refPermuteExecuteCorrect .QAsymmU8 permuteTestDescQ8
      { m_Data := permuteTestDescQ8 } permuteTestInQ8 rfl rfl [2, 1]
      (by decide)).2.2.2.2

/-- C8: workload construction validates the QueueDescriptor before any
execution — for every descriptor whose permutation-vector length differs
from the input tensor rank, or whose input or output slot count differs from
Permute's fixed arity of one input and one output, CreateWorkload returns no
workload, so no workload value exists for that descriptor and Execute (a
function defined only on workload values) is never run on it. -/
theorem C8_descriptorValidationFails (dt : DataType)
    (d : PermuteQueueDescriptor (ResolveType dt))
    (hbad : d.inputs.length ≠ 1 ∨ d.outputs.length ≠ 1 ∨
      (∃ inp, d.inputs = [inp] ∧
        d.mappings.length ≠ inp.info.shape.length)) :
    createRefPermuteWorkload dt d = none := by
  have hval : validatePermute d = false := by
    unfold validatePermute
    cases hi : d.inputs with
    | nil => rfl
    | cons a as =>
        cases as with
        | nil =>
            cases ho : d.outputs with
            | nil => rfl
            | cons b bs =>
                cases bs with
                | nil =>
                    rcases hbad with h | h | h
                    · rw [hi] at h
                      exact absurd rfl h
                    · rw [ho] at h
                      exact absurd rfl h
                    · rcases h with ⟨inp, hinp, hlen⟩
                      rw [hi] at hinp
                      have ha : a = inp := by
                        have := List.cons.inj hinp
                        exact this.1
                      rw [ha]
                      exact beq_eq_false_iff_ne.mpr hlen
                | cons c cs => rfl
        | cons b bs => rfl
  unfold createRefPermuteWorkload
  rw [if_neg (by rw [hval]; exact Bool.false_ne_true)]

/-- A malformed descriptor: permutation vector of length 3 against an input
tensor of rank 2. -/
def permuteBadDesc : PermuteQueueDescriptor (ResolveType .Float32) :=
  { mappings := [0, 1, 2],
    inputs := [ { info := { shape := [2, 3], dataType := .Float32,
                            quantScale := 1, quantOffset := 0 },
                  data := [1, 2, 3, 4, 5, 6] } ],
    outputs := [ { info := { shape := [3, 2], dataType := .Float32,
                             quantScale := 1, quantOffset := 0 },
                   data := [0, 0, 0, 0, 0, 0] } ] }

/-- Witness for C8 on the malformed descriptor. -/
theorem C8_descriptorValidationFails_witness :
    createRefPermuteWorkload .Float32 permuteBadDesc = none :=
  C8_descriptorValidationFails .Float32 permuteBadDesc
    (Or.inr (Or.inr ⟨_, rfl, by decide⟩))

/-! ### ParserFlatbuffersSerializeFixture -/

/-- Status codes returned by the runtime's LoadNetwork. -/
inductive Status where
  | Success
  | Failure
deriving DecidableEq

/-- The outcomes of the external collaborators that
ParserFlatbuffersSerializeFixture::Setup invokes, given as an environment:
whether the flatbuffers schema parse and the JSON parse succeed (the two
stages of ReadStringToBinary), whether the parser's CreateNetworkFromBinary
produces a non-null network, and the status the runtime's LoadNetwork
returns. -/
structure SetupEnv where
  schemaParseOk : Bool
  jsonParseOk : Bool
  networkCreated : Bool
  loadStatus : Status

/-- ReadStringToBinary from the source: parses the schema first, then the
JSON input, and returns true only when both parses succeed. -/
def readStringToBinary (e : SetupEnv) : Bool :=
  e.schemaParseOk && e.jsonParseOk

/-- Setup from the source: ReadStringToBinary, then CreateNetworkFromBinary,
then LoadNetwork, throwing an armnn::Exception at the first stage that
fails; the error value carries the exception message. -/
def fixtureSetup (e : SetupEnv) : Except String Unit :=
  if readStringToBinary e = false then
    Except.error ("LoadNetwork failed while reading binary input")
  else if e.networkCreated = false then
    Except.error ("The parser failed to create an ArmNN network")
  else if e.loadStatus ≠ Status.Success then
    Except.error ("The runtime failed to load the network.")
  else
    Except.ok ()

/-- Whether a network is loaded after Setup: only the path on which every
stage succeeds reaches LoadNetwork's successful return and leaves the
network registered under m_NetworkIdentifier. -/
def networkLoadedAfter (e : SetupEnv) : Bool :=
  match fixtureSetup e with
  | Except.ok _ => true
  | Except.error _ => false

/-- C9: Setup raises an armnn::Exception and leaves no network loaded
exactly when one of its three stages fails — ReadStringToBinary returns
false (schema or JSON parse failure), CreateNetworkFromBinary returns a null
network, or LoadNetwork returns a status other than Success — and it
returns normally exactly when all three stages succeed. -/
theorem C9_setupErrorBehavior (e : SetupEnv) :
    (((∃ msg, fixtureSetup e = Except.error msg) ∧
        networkLoadedAfter e = false) ↔
      (readStringToBinary e = false ∨ e.networkCreated = false ∨
        e.loadStatus ≠ Status.Success)) ∧
    (fixtureSetup e = Except.ok () ↔
      (readStringToBinary e = true ∧ e.networkCreated = true ∧
        e.loadStatus = Status.Success)) := by
  obtain ⟨sp, jp, nc, ls⟩ := e
  cases sp <;> cases jp <;> cases nc <;> cases ls <;>
    simp [fixtureSetup, networkLoadedAfter, readStringToBinary]

/-- The two names the single-input-single-output Setup overload stores on
the fixture. -/
structure FixtureNames where
  m_SingleInputName : String
  m_SingleOutputName : String

/-- SetupSingleInputSingleOutput from the source: stores the input and
output name so they do not need to be passed to the single-input
single-output RunTest, then runs Setup. -/
def setupSingleInputSingleOutput (inputName outputName : String)
    (e : SetupEnv) : FixtureNames × Except String Unit :=
  ({ m_SingleInputName := inputName, m_SingleOutputName := outputName },
   fixtureSetup e)

/-- The external collaborators RunTest uses: per-name input and output
binding info (binding identifier and TensorInfo) from the deserializer, and
the runtime's EnqueueWorkload as a function from the bound input tensors to
the output tensors it writes, keyed by binding identifier. -/
structure RunTestEnv (α : Type) where
  inputBinding : Nat → String → Nat × TensorInfo
  outputBinding : Nat → String → Nat × TensorInfo
  enqueue : List (Nat × List α) → List (Nat × List α)

/-- The map-based RunTest overload from the source: collect the input
tensors from the named input data via the parser's input binding info, run
EnqueueWorkload, and compare every named expected output against the storage
written for its output binding. -/
def runTestMulti {α : Type} [DecidableEq α] (env : RunTestEnv α)
    (layersId : Nat) (inputData : List (String × List α))
    (expectedOutputData : List (String × List α)) : Bool :=
  let inputTensors := inputData.map (fun it =>
    ((env.inputBinding layersId it.1).1, it.2))
  let outputs := env.enqueue inputTensors
  expectedOutputData.all (fun it =>
    (outputs.lookup (env.outputBinding layersId it.1).1).getD [] == it.2)

/-- The single-input-single-output RunTest overload from the source: it
forwards to the map-based overload with the two stored names as singleton
maps. -/
def runTestSingle {α : Type} [DecidableEq α] (env : RunTestEnv α)
    (fx : FixtureNames) (layersId : Nat)
    (inputData expectedOutputData : List α) : Bool :=
  runTestMulti env layersId [(fx.m_SingleInputName, inputData)]
    [(fx.m_SingleOutputName, expectedOutputData)]

/-- C10: the single-input-single-output RunTest overload is equivalent to
the map-based overload — after SetupSingleInputSingleOutput has stored the
two names, calling the single overload with a layer id, input vector and
expected-output vector produces exactly the result of the map-based overload
on the singleton maps formed from the stored names; and the stored names are
the ones passed to SetupSingleInputSingleOutput. -/
theorem C10_runTestSingleEquivMulti {α : Type} [DecidableEq α]
    (env : RunTestEnv α) (inputName outputName : String) (e : SetupEnv)
    (layersId : Nat) (inputData expectedOutputData : List α) :
    runTestSingle env (setupSingleInputSingleOutput inputName outputName e).1
        layersId inputData expectedOutputData =
      runTestMulti env layersId [(inputName, inputData)]
        [(outputName, expectedOutputData)] ∧
    (setupSingleInputSingleOutput inputName outputName e).1 =
      { m_SingleInputName := inputName, m_SingleOutputName := outputName } :=
  ⟨rfl, rfl⟩

/-- A concrete environment whose JSON parse fails. -/
def c9Env : SetupEnv :=
  { schemaParseOk := true, jsonParseOk := false, networkCreated := true,
    loadStatus := .Success }

/-- Witness for C9 at a concrete environment. -/
theorem C9_setupErrorBehavior_witness :
    (((∃ msg, fixtureSetup c9Env = Except.error msg) ∧
        networkLoadedAfter c9Env = false) ↔
      (readStringToBinary c9Env = false ∨ c9Env.networkCreated = false ∨
        c9Env.loadStatus ≠ Status.Success)) ∧
    (fixtureSetup c9Env = Except.ok () ↔
      (readStringToBinary c9Env = true ∧ c9Env.networkCreated = true ∧
        c9Env.loadStatus = Status.Success)) :=
  C9_setupErrorBehavior c9Env

/-- A concrete RunTest environment over Int elements. -/
def c10Env : RunTestEnv Int :=
  { inputBinding := fun _ _ => (0, infoIn1231),
    outputBinding := fun _ _ => (1, infoOut1123),
    enqueue := fun inputs => [(1, (inputs.lookup 0).getD [])] }

/-- Witness for C10 at concrete names, environment and data. -/
theorem C10_runTestSingleEquivMulti_witness :
    runTestSingle c10Env (setupSingleInputSingleOutput ("in") ("out")
        c9Env).1 0 [1, 2] [1, 2] =
      runTestMulti c10Env 0 [("in", [1, 2])] [("out", [1, 2])] ∧
    (setupSingleInputSingleOutput ("in") ("out") c9Env).1 =
      { m_SingleInputName := ("in"), m_SingleOutputName := ("out") } :=
  C10_runTestSingleEquivMulti c10Env ("in") ("out") c9Env 0 [1, 2] [1, 2]

end ArmnnSpec
